import Mathlib

/-!
Shallow embedding of the document-understanding core of the 3D-filament-scanner
repository: the invoice parser (`backend/invoice_parser.py`) and the OCR label
parser (`backend/ocr_service.py`).

Python strings are modelled as `List Char`; floats (which only ever hold exact
decimal literals parsed from text) are modelled as `ℚ`; fallible code returns
`Except`.  Regular-expression searches from the source are hand-compiled into
leftmost-match scanners with the alternatives tried in the order they appear in
the pattern, which is exactly the semantics of `re.search` / `re.match` for the
backtracking-free patterns the source uses.
-/

namespace FilamentScanner

/-- Python strings are modelled as lists of characters. -/
abbrev Str := List Char

/-- Coerce a Lean string literal into the `List Char` model. -/
def lit (s : String) : Str := s.data

/-- Python whitespace (`str.strip`, regex `\s`), ASCII part; all the texts the
parsers see only contain ASCII whitespace. -/
def pyIsSpace (c : Char) : Bool :=
  c == ' ' || c == '\t' || c == '\n' || c == '\r' || c == '\x0b' || c == '\x0c'

/-- Python `str.lower()` (ASCII). -/
def pyLower (s : Str) : Str := s.map Char.toLower

/-- Python `str.upper()` (ASCII). -/
def pyUpper (s : Str) : Str := s.map Char.toUpper

/-- Python `needle in haystack` substring test. -/
def containsSub (needle : Str) : Str → Bool
  | [] => needle.isEmpty
  | c :: rest => needle.isPrefixOf (c :: rest) || containsSub needle rest

/-- Python `s.startswith(p)` for a single prefix. -/
def pyStarts (p s : Str) : Bool := p.isPrefixOf s

/-- Python `s.startswith((p1, p2, ...))`. -/
def startsWithAny (ps : List Str) (s : Str) : Bool := ps.any (fun p => pyStarts p s)

/-- Case-insensitive prefix test (for `re.match` with `re.IGNORECASE`). -/
def ciStarts (p s : Str) : Bool := pyStarts (pyLower p) (pyLower s)

/-- Case-insensitive `startswith` against several alternatives. -/
def ciStartsAny (ps : List Str) (s : Str) : Bool := ps.any (fun p => ciStarts p s)

/-- Python `str.strip()`. -/
def pyStrip (s : Str) : Str :=
  ((s.dropWhile pyIsSpace).reverse.dropWhile pyIsSpace).reverse

/-- Python `text.split(sep)` for a one-character separator (in particular
`text.split("\n")`); `"".split(c) = [""]`. -/
def splitOnChar (sep : Char) : Str → List Str
  | [] => [[]]
  | x :: rest =>
    let r := splitOnChar sep rest
    if x == sep then [] :: r
    else
      match r with
      | [] => [[x]]
      | h :: t => (x :: h) :: t

/-- Python `str.split()` with no argument: maximal runs of non-whitespace. -/
def pyWords (s : Str) : List Str :=
  (s.foldr
    (fun c acc =>
      if pyIsSpace c then [] :: acc
      else
        match acc with
        | [] => [[c]]
        | h :: t => (c :: h) :: t)
    []).filter (fun w => !w.isEmpty)

/-- Python `" ".join(s.split())`: collapse internal whitespace. -/
def wsNormalize (s : Str) : Str := List.intercalate (lit (" ")) (pyWords s)

/-- Python `str.title()`: first letter of every alphabetic run uppercased, the
rest lowercased. -/
def pyTitleAux : Bool → Str → Str
  | _, [] => []
  | prevAlpha, c :: rest =>
    let isAl := c.isAlpha
    let c2 := if isAl then (if prevAlpha then c.toLower else c.toUpper) else c
    c2 :: pyTitleAux isAl rest

/-- Python `str.title()`. -/
def pyTitle (s : Str) : Str := pyTitleAux false s

/-- Numeric value of a digit string (regex `\d+` capture fed to `int`). -/
def digitsToNat (ds : Str) : Nat := ds.foldl (fun n c => 10 * n + (c.toNat - 48)) 0

/-- Absolute difference of two rationals, computed on the numerator/denominator
representation so that it evaluates by kernel reduction (`ratAbsSub_eq` below
proves it equal to `|a - b|`). -/
def ratAbsSub (a b : ℚ) : ℚ :=
  mkRat (Int.natAbs (a.num * (b.den : Int) - b.num * (a.den : Int))) (a.den * b.den)

/-- Value of `float("<ip>.<fp>")` for two digit strings, built with `mkRat` so
that it evaluates by kernel reduction (`decimalToRat_eq` below gives the usual
form). -/
def decimalToRat (ip fp : Str) : ℚ :=
  mkRat (Int.ofNat (digitsToNat ip * 10 ^ fp.length + digitsToNat fp)) (10 ^ fp.length)

/-- Python `float()` applied to a capture of the class `[0-9.]+`: at most one
dot and at least one digit, otherwise a `ValueError`. -/
def pyFloat (s : Str) : Option ℚ :=
  let ip := s.takeWhile Char.isDigit
  match s.drop ip.length with
  | [] => if ip.isEmpty then none else some (mkRat (Int.ofNat (digitsToNat ip)) 1)
  | '.' :: fr =>
    if fr.all Char.isDigit && (!ip.isEmpty || !fr.isEmpty) then
      some (decimalToRat ip fr)
    else none
  | _ => none

/-- Leftmost-match driver for `re.search`: try the pattern at every start
position, earliest position first. -/
def reSearchFirst {α : Type} (tryAt : Str → Option α) : Str → Option α
  | [] => tryAt []
  | c :: rest =>
    match tryAt (c :: rest) with
    | some r => some r
    | none => reSearchFirst tryAt rest

/-- Match a literal (case-sensitively), returning the rest of the input. -/
def stripLit : Str → Str → Option Str
  | [], s => some s
  | _ :: _, [] => none
  | p :: ps, c :: cs => if c == p then stripLit ps cs else none

/-- Match a literal case-insensitively, returning the matched original
characters and the rest of the input. -/
def stripLitCI : Str → Str → Option (Str × Str)
  | [], s => some ([], s)
  | _ :: _, [] => none
  | p :: ps, c :: cs =>
    if c.toLower == p.toLower then
      (stripLitCI ps cs).map (fun mr => (c :: mr.1, mr.2))
    else none

/-- Match one-or-more characters of a class (`X+`), returning the matched run
and the rest. -/
def takeWhile1 (p : Char → Bool) (s : Str) : Option (Str × Str) :=
  let m := s.takeWhile p
  if m.isEmpty then none else some (m, s.drop m.length)

/-- Match exactly `n` digits (`\d{n}`). -/
def takeDigitsN : Nat → Str → Option (Str × Str)
  | 0, s => some ([], s)
  | _ + 1, [] => none
  | n + 1, c :: cs =>
    if c.isDigit then (takeDigitsN n cs).map (fun mr => (c :: mr.1, mr.2)) else none

/-! ## Data model of the invoice parser (`backend/invoice_parser.py`) -/

/-- Python-level failures of the invoice pipeline. -/
inductive PErr
  | indexError
  | unknownVendor
  | invalidDate
  | internalFuel
deriving DecidableEq

/-- A calendar date as produced by `datetime.strptime(...).date()`. -/
structure PyDate where
  year : Nat
  month : Nat
  day : Nat
deriving DecidableEq

/-- Length of a month in the proleptic Gregorian calendar. -/
def daysInMonth (y m : Nat) : Nat :=
  if m = 2 then (if (y % 4 = 0 ∧ y % 100 ≠ 0) ∨ y % 400 = 0 then 29 else 28)
  else if m = 4 ∨ m = 6 ∨ m = 9 ∨ m = 11 then 30 else 31

/-- `datetime.strptime` validation of a year/month/day triple: raises
`ValueError` (here `none`) on an impossible date. -/
def strptimeYMD (y m d : Nat) : Option PyDate :=
  if 1 ≤ y ∧ 1 ≤ m ∧ m ≤ 12 ∧ 1 ≤ d ∧ d ≤ daysInMonth y m then some ⟨y, m, d⟩ else none

/-- One element of the `items` list built by the invoice parsers. -/
structure InvoiceItem where
  brand : Str
  material : Str
  color_name : Str
  diameter_mm : ℚ
  sku : Option Str
  quantity : Nat
  price : Option ℚ
  product_line : Str
deriving DecidableEq

/-- The dict returned by `parse_bambu_invoice` / `parse_amazon_invoice`. -/
structure InvoiceResult where
  order_number : Option Str
  order_date : Option PyDate
  vendor : Str
  items : List InvoiceItem
deriving DecidableEq

/-! ## Bambu invoice scanner (`InvoiceParser._extract_bambu_products`) -/

/-- The material keywords of `^(PLA|PETG|ABS|TPU|ASA)` (product-line regex). -/
def materialLineKeywords : List Str :=
  [lit ("PLA"), lit ("PETG"), lit ("ABS"), lit ("TPU"), lit ("ASA")]

/-- `re.match(r"^(PLA|PETG|ABS|TPU|ASA)(\s+(Basic|...))?", line, re.IGNORECASE)`
used as a boolean: the optional group never affects success, so this is a
case-insensitive prefix test. -/
def materialLineMatch (line : Str) : Bool := ciStartsAny materialLineKeywords line

/-- `lines[i]` with the bound already checked by the caller (`list.getD`). -/
def lineAt (lines : List Str) (i : Nat) : Str := lines.getD i []

/-- Generic `if i < len(lines) and cond(lines[i]): i += 1` step. -/
def skipIfAt (cond : Str → Bool) (lines : List Str) (i : Nat) : Nat :=
  if i < lines.length ∧ cond (lineAt lines i) then i + 1 else i

/-- Product-name continuation: absorb the next line when it does not start a
structural marker and matches `^(Multi-Color|for AMS|HF)` (case-insensitive). -/
def contStep (lines : List Str) (pn : Str) (i : Nat) : Str × Nat :=
  if i < lines.length ∧
      ¬ startsWithAny
          [lit ("SKU:"), lit ("WA STATE"), lit ("TAX"), lit ("Variant:")]
          (lineAt lines i) then
    if ciStartsAny [lit ("Multi-Color"), lit ("for AMS"), lit ("HF")] (lineAt lines i) then
      (pn ++ [' '] ++ lineAt lines i, i + 1)
    else (pn, i)
  else (pn, i)

/-- `re.search(r"SKU:\s*([A-Z0-9-]+)", line)`. -/
def skuSearch (line : Str) : Option Str :=
  reSearchFirst
    (fun s => do
      let r ← stripLit (lit ("SKU:")) s
      let r2 := r.dropWhile pyIsSpace
      let mr ← takeWhile1 (fun c => c.isUpper || c.isDigit || c == '-') r2
      pure mr.1)
    line

/-- SKU step: only taken when the current line starts with `"SKU:"`. -/
def skuStep (lines : List Str) (i : Nat) : Option Str × Nat :=
  if i < lines.length ∧ pyStarts (lit ("SKU:")) (lineAt lines i) then
    (skuSearch (lineAt lines i), i + 1)
  else (none, i)

/-- The common tail `(\d+)\s+\$(\d+\.\d+)` of the quantity/price regex. -/
def qtyPriceTail (s : Str) : Option (Nat × ℚ) := do
  let ds ← takeWhile1 Char.isDigit s
  let ws ← takeWhile1 pyIsSpace ds.2
  match ws.2 with
  | '$' :: r3 => do
    let ip ← takeWhile1 Char.isDigit r3
    match ip.2 with
    | '.' :: r5 => do
      let fp ← takeWhile1 Char.isDigit r5
      pure (digitsToNat ds.1, decimalToRat ip.1 fp.1)
    | _ => none
  | _ => none

/-- `re.search(r"^(?:SPL(?:FREE)?\s+)?(\d+)\s+\$(\d+\.\d+)", line)`: anchored at
the start; the optional prefix is tried greedily (`SPLFREE`, then `SPL`, then
nothing), exactly as the backtracking engine does. -/
def qtyPriceMatch (line : Str) : Option (Nat × ℚ) :=
  match (do
      let r ← stripLit (lit ("SPLFREE")) line
      let ws ← takeWhile1 pyIsSpace r
      qtyPriceTail ws.2) with
  | some res => some res
  | none =>
    match (do
        let r ← stripLit (lit ("SPL")) line
        let ws ← takeWhile1 pyIsSpace r
        qtyPriceTail ws.2) with
    | some res => some res
    | none => qtyPriceTail line

/-- Quantity/price look-ahead over `range(i, min(i + 5, len(lines)))`: first
matching line wins and the cursor moves past it; otherwise `qty=1`, no price,
cursor advances one line (`for`/`else`). -/
def qtyPriceScan (lines : List Str) (i : Nat) : Nat × Option ℚ × Nat :=
  match ((List.range 5).filter (fun k => i + k < lines.length)).findSome?
      (fun k => (qtyPriceMatch (lineAt lines (i + k))).map (fun qp => (qp, i + k + 1))) with
  | some (qp, iNew) => (qp.1, some qp.2, iNew)
  | none => (1, none, i + 1)

/-- The `WA CITY` skip, with Python operator precedence kept:
`if i < len(lines) and lines[i] == "WA CITY" or (lines[i].startswith("WA CITY")
and "TAX" not in lines[i])`.  When `i` is out of range the first disjunct is
false and evaluating the second reads `lines[i]`, raising `IndexError`. -/
def waCityStep (lines : List Str) (i : Nat) : Except PErr Nat :=
  if i < lines.length then
    let l := lineAt lines i
    if l = lit ("WA CITY") then .ok (i + 1)
    else if pyStarts (lit ("WA CITY")) l ∧ ¬ containsSub (lit ("TAX")) l then .ok (i + 1)
    else .ok i
  else .error .indexError

/-- Summary-section markers that stop variant collection. -/
def summaryMarkers : List Str :=
  [lit ("Items Subtotal"), lit ("Shipping"), lit ("Grand total"), lit ("Total exclude")]

/-- Body of the variant-collection look-ahead (`for look_ahead in
range(i, min(i + 5, len(lines)))`), iterating over the precomputed absolute
look-ahead indices; `i0` is the cursor value at loop entry (`break` without an
assignment leaves the cursor there, loop exhaustion advances it by one). -/
def variantLoopGo (lines : List Str) (i0 : Nat) (vl : Str) : List Nat → Str × Nat
  | [] => (vl, i0 + 1)
  | look :: rest =>
    let line := lineAt lines look
    if startsWithAny materialLineKeywords line then (vl, i0)
    else if startsWithAny summaryMarkers line then (vl, i0)
    else if pyStarts (lit ("Variant:")) line ∨
        (containsSub (lit ("(")) line ∧ containsSub (lit (")")) line ∧
          ¬ pyStarts (lit ("PLA")) line) then
      let vl2 := vl ++ [' '] ++ line
      if containsSub (lit ("(")) vl2 ∧ containsSub (lit (")")) vl2 then (vl2, look + 1)
      else variantLoopGo lines i0 vl2 rest
    else if vl ≠ [] ∧
        ¬ startsWithAny
            [lit ("TAX"), lit ("WA STATE"), lit ("WA CITY"), lit ("SKU"), lit ("SPL")]
            line then
      let vl2 := vl ++ [' '] ++ line
      if containsSub (lit ("kg")) vl2 ∨
          (containsSub (lit ("(")) vl2 ∧ containsSub (lit (")")) vl2) then (vl2, look + 1)
      else variantLoopGo lines i0 vl2 rest
    else variantLoopGo lines i0 vl rest

/-- Variant-collection step: returns the accumulated `variant_line` and the new
cursor. -/
def variantStep (lines : List Str) (i0 : Nat) : Str × Nat :=
  variantLoopGo lines i0 []
    ((List.range 5).filterMap (fun k => if i0 + k < lines.length then some (i0 + k) else none))

/-- `re.search(r"Variant:\s*([^(]+?)\s*\(", variant_line)` followed by
`.group(1).strip()`: at each `Variant:` occurrence the group captures the
text before the first `(`; with the surrounding `\s*`, the stripped capture is
the stripped segment between the colon and that parenthesis (the match fails
when the parenthesis is immediately adjacent or absent). -/
def variantColorSearch (vl : Str) : Option Str :=
  reSearchFirst
    (fun s => do
      let rest ← stripLit (lit ("Variant:")) s
      let seg := rest.takeWhile (fun c => c != '(')
      if seg.isEmpty then none
      else if seg.length = rest.length then none
      else some (pyStrip seg))
    vl

/-- Keywords of the colour clean-up
`re.sub(r'\s+(TAX|WA STATE|WA CITY|Refill|Filament|with spool|/).*$', ...)`. -/
def colorCutKeywords : List Str :=
  [lit ("TAX"), lit ("WA STATE"), lit ("WA CITY"), lit ("Refill"),
    lit ("Filament"), lit ("with spool"), lit ("/")]

/-- Does a whitespace run starting here end at one of the clean-up keywords
(case-insensitively)? -/
def kwAfterWs (s : Str) : Bool :=
  colorCutKeywords.any (fun k => ciStarts k (s.dropWhile pyIsSpace))

/-- Truncate at the leftmost whitespace run that is followed by a clean-up
keyword (the `.*$` of the substitution erases everything from there on). -/
def colorCleanupCut : Str → Str
  | [] => []
  | c :: rest =>
    if pyIsSpace c ∧ kwAfterWs (c :: rest) then []
    else c :: colorCleanupCut rest

/-- Colour clean-up: substitution, `strip`, then whitespace collapsing. -/
def colorCleanup (c : Str) : Str := wsNormalize (pyStrip (colorCleanupCut c))

/-- Material normalisation ladder over `product_name.upper()` (lines 186-209 of
`invoice_parser.py`). -/
def materialFromProductName (pn : Str) : Option Str :=
  let pu := pyUpper pn
  if containsSub (lit ("PLA")) pu then
    if containsSub (lit ("SILK")) pu ∧ containsSub (lit ("MULTI")) pu then
      some (lit ("PLA SILK MULTI-COLOR"))
    else if containsSub (lit ("SILK")) pu then some (lit ("PLA SILK"))
    else if containsSub (lit ("MATTE")) pu then some (lit ("PLA MATTE"))
    else if containsSub (lit ("TOUGH+")) pu ∨ containsSub (lit ("TOUGH")) pu then
      some (lit ("PLA TOUGH+"))
    else if containsSub (lit ("BASIC")) pu then some (lit ("PLA BASIC"))
    else some (lit ("PLA"))
  else if containsSub (lit ("PETG")) pu then
    if containsSub (lit ("HF")) pu then some (lit ("PETG HF")) else some (lit ("PETG"))
  else if containsSub (lit ("ABS")) pu then some (lit ("ABS"))
  else if containsSub (lit ("TPU")) pu then some (lit ("TPU"))
  else if containsSub (lit ("ASA")) pu then some (lit ("ASA"))
  else none

/-- Python truthiness of an optional string (`if material and color_name`). -/
def truthyOptStr : Option Str → Bool
  | none => false
  | some s => !s.isEmpty

/-- The sequential product scan of `_extract_bambu_products`.  `fuel` bounds
the number of outer `while` iterations; since the cursor strictly increases on
every iteration, `fuel = lines.length` always suffices (see
`extractBambuAux_no_fuel_error`). -/
def extractBambuAux (lines : List Str) : Nat → Nat → Except PErr (List InvoiceItem)
  | i, 0 => if i < lines.length then .error .internalFuel else .ok []
  | i, fuel + 1 =>
    if i < lines.length then
      let line := lineAt lines i
      if materialLineMatch line then
        let pni := contStep lines line (i + 1)
        let i2 := skipIfAt (fun l => containsSub (lit ("WA STATE")) l) lines pni.2
        let ski := skuStep lines i2
        let i4 := skipIfAt
          (fun l => containsSub (lit ("TAX")) l ∧ ¬ containsSub (lit ("WA STATE")) l)
          lines ski.2
        let qpi := qtyPriceScan lines i4
        match waCityStep lines qpi.2.2 with
        | .error e => .error e
        | .ok i6 =>
          let vli := variantStep lines i6
          let color := (variantColorSearch vli.1).map colorCleanup
          let material := materialFromProductName pni.1
          match extractBambuAux lines vli.2 fuel with
          | .error e => .error e
          | .ok rest =>
            if truthyOptStr material ∧ truthyOptStr color then
              .ok ({ brand := lit ("Bambu Lab"),
                     material := material.getD [],
                     color_name := color.getD [],
                     diameter_mm := mkRat 7 4,
                     sku := ski.1,
                     quantity := qpi.1,
                     price := qpi.2.1,
                     product_line := pni.1 } :: rest)
            else .ok rest
      else extractBambuAux lines (i + 1) fuel
    else .ok []

/-- The stripped line list the Bambu scanner works on (blank lines kept). -/
def bambuLines (text : Str) : List Str := (splitOnChar '\n' text).map pyStrip

/-- `_extract_bambu_products(text)`. -/
def extractBambuProducts (text : Str) : Except PErr (List InvoiceItem) :=
  extractBambuAux (bambuLines text) 0 (bambuLines text).length

/-- `re.search(r"Order Number:\s*([A-Za-z0-9]+)", full_text)`. -/
def orderNumberSearch (text : Str) : Option Str :=
  reSearchFirst
    (fun s => do
      let r ← stripLit (lit ("Order Number:")) s
      let mr ← takeWhile1 (fun c => c.isAlpha || c.isDigit) (r.dropWhile pyIsSpace)
      pure mr.1)
    text

/-- `re.search(r"Invoice Date:\s*(\d{4}-\d{2}-\d{2})", full_text)`, returning
the three captured numbers. -/
def invoiceDateSearch (text : Str) : Option (Nat × Nat × Nat) :=
  reSearchFirst
    (fun s => do
      let r ← stripLit (lit ("Invoice Date:")) s
      let y ← takeDigitsN 4 (r.dropWhile pyIsSpace)
      match y.2 with
      | '-' :: r2 => do
        let m ← takeDigitsN 2 r2
        match m.2 with
        | '-' :: r3 => do
          let d ← takeDigitsN 2 r3
          pure (digitsToNat y.1, digitsToNat m.1, digitsToNat d.1)
        | _ => none
      | _ => none)
    text

/-- `InvoiceParser.parse_bambu_invoice`, from the extracted PDF text on.  An
impossible `Invoice Date` makes `strptime` raise, which propagates. -/
def parseBambuInvoiceText (fullText : Str) : Except PErr InvoiceResult := do
  let od ← match invoiceDateSearch fullText with
    | none => pure (none : Option PyDate)
    | some ymd =>
      match strptimeYMD ymd.1 ymd.2.1 ymd.2.2 with
      | some dt => pure (some dt)
      | none => Except.error PErr.invalidDate
  let items ← extractBambuProducts fullText
  pure { order_number := orderNumberSearch fullText,
         order_date := od,
         vendor := lit ("Bambu Lab"),
         items := items }

/-! ## Amazon invoice scanner (`InvoiceParser._extract_amazon_products`) -/

/-- `re.match(r"^\$(\d+\.\d{2})$", line)`: a line that is exactly a currency
amount. -/
def priceLineMatch (line : Str) : Option ℚ :=
  match line with
  | '$' :: r => do
    let ip ← takeWhile1 Char.isDigit r
    match ip.2 with
    | '.' :: r2 => do
      let fp ← takeDigitsN 2 r2
      if fp.2.isEmpty then pure (decimalToRat ip.1 fp.1) else none
    | _ => none
  | _ => none

/-- Backward search for a `Sold by:` / `Supplied by:` line over
`range(i - 1, max(-1, i - 10), -1)`. -/
def findSoldBy (lines : List Str) (i : Nat) : Option Nat :=
  ((List.range 9).filterMap (fun k => if k + 1 ≤ i then some (i - 1 - k) else none)).find?
    (fun j => startsWithAny [lit ("Sold by:"), lit ("Supplied by:")] (lineAt lines j))

/-- Header/footer markers that terminate the backward description walk. -/
def descBreakLine (lines : List Str) (k : Nat) : Bool :=
  let l := lineAt lines k
  pyStarts (lit ("Delivered")) l || containsSub (lit ("Order placed")) l ||
  pyStarts (lit ("Return or replace")) l || pyStarts (lit ("Order #")) l ||
  pyStarts (lit ("Supplied by:")) l || (priceLineMatch l).isSome

/-- Walk backwards collecting description lines; `insert(0, ...)` keeps them in
document order, which prepending during the descending walk reproduces. -/
def collectDescGo (lines : List Str) : List Nat → List Str → List Str
  | [], acc => acc
  | k :: rest, acc =>
    if descBreakLine lines k then acc
    else collectDescGo lines rest (lineAt lines k :: acc)

/-- Description lines above `Sold by:` over `range(s - 1, max(-1, s - 6), -1)`. -/
def collectDesc (lines : List Str) (s : Nat) : List Str :=
  collectDescGo lines
    ((List.range 5).filterMap (fun t => if t + 1 ≤ s then some (s - 1 - t) else none)) []

/-- `re.sub(r'^\$\d+\.\d{2}\s+', '', full_description)`: drop one leading
price token. -/
def stripLeadingPrice (s : Str) : Str :=
  match s with
  | '$' :: r =>
    match takeWhile1 Char.isDigit r with
    | none => s
    | some ip =>
      match ip.2 with
      | '.' :: r2 =>
        match takeDigitsN 2 r2 with
        | none => s
        | some fp =>
          if (fp.2.takeWhile Char.isDigit).isEmpty then
            match takeWhile1 pyIsSpace fp.2 with
            | none => s
            | some ws => ws.2
          else s
      | _ => s
  | _ => s

/-- The colour vocabulary of `_parse_amazon_filament_description`, in source
order. -/
def amazonColors : List Str :=
  [lit ("black"), lit ("white"), lit ("grey"), lit ("gray"), lit ("red"),
    lit ("blue"), lit ("green"), lit ("yellow"), lit ("orange"), lit ("purple"),
    lit ("pink"), lit ("gold"), lit ("silver"), lit ("copper"), lit ("brown"),
    lit ("pine green"), lit ("deep black"), lit ("cold white"), lit ("cool white")]

/-- `max(found_colors, key=len)`: first maximum wins ties, as in Python. -/
def maxByLen : List Str → Str
  | [] => []
  | c :: rest => rest.foldl (fun best x => if x.length > best.length then x else best) c

/-- `InvoiceParser._parse_amazon_filament_description` (always returns a dict;
unresolved material defaults to `"PLA"`, unresolved colour to `"Unknown"`). -/
def parseAmazonFilamentDescription (description : Str) (price : ℚ) : InvoiceItem :=
  let dl := pyLower description
  let brand :=
    if containsSub (lit ("esun")) dl then lit ("eSUN")
    else if containsSub (lit ("sunlu")) dl then lit ("Sunlu")
    else if containsSub (lit ("overture")) dl then lit ("Overture")
    else if containsSub (lit ("polymaker")) dl then lit ("Polymaker")
    else if containsSub (lit ("hatchbox")) dl then lit ("Hatchbox")
    else if containsSub (lit ("bambu")) dl then lit ("Bambu Lab")
    else lit ("Unknown")
  let material :=
    if containsSub (lit ("pla+")) dl ∨ containsSub (lit ("pla plus")) dl then lit ("PLA+")
    else if containsSub (lit ("pla matte")) dl ∨ containsSub (lit ("matte pla")) dl then
      lit ("PLA Matte")
    else if containsSub (lit ("pla silk")) dl ∨ containsSub (lit ("silk pla")) dl then
      lit ("PLA Silk")
    else if containsSub (lit ("pla")) dl then lit ("PLA")
    else if containsSub (lit ("petg")) dl then lit ("PETG")
    else if containsSub (lit ("tpu")) dl then lit ("TPU")
    else if containsSub (lit ("abs")) dl then lit ("ABS")
    else if containsSub (lit ("asa")) dl then lit ("ASA")
    else lit ("PLA")
  let foundColors := amazonColors.filter (fun c => containsSub c dl)
  let color_name :=
    if foundColors.isEmpty then lit ("Unknown") else pyTitle (maxByLen foundColors)
  let diameter := if containsSub (lit ("2.85")) description then mkRat 57 20 else mkRat 7 4
  { brand := brand,
    material := material,
    color_name := color_name,
    diameter_mm := diameter,
    sku := none,
    quantity := 1,
    price := some price,
    product_line := description.take 50 ++ lit ("...") }

/-- One iteration of the Amazon price-anchored scan at line `i`: the items this
line contributes (zero or one). -/
def amazonItemsAt (lines : List Str) (i : Nat) : List InvoiceItem :=
  match priceLineMatch (lineAt lines i) with
  | none => []
  | some price =>
    match findSoldBy lines i with
    | none => []
    | some s =>
      let desc0 := pyStrip (List.intercalate (lit (" ")) (collectDesc lines s))
      let desc := stripLeadingPrice desc0
      let dl := pyLower desc
      if containsSub (lit ("filament")) dl ∨ containsSub (lit ("pla")) dl ∨
          containsSub (lit ("petg")) dl then
        [parseAmazonFilamentDescription desc price]
      else []

/-- The Amazon outer loop: the cursor advances one line per iteration. -/
def extractAmazonAux (lines : List Str) : Nat → Nat → List InvoiceItem
  | _, 0 => []
  | i, fuel + 1 =>
    if i < lines.length then
      amazonItemsAt lines i ++ extractAmazonAux lines (i + 1) fuel
    else []

/-- `_extract_amazon_products(text)` (lines are stripped and blank lines are
dropped, unlike the Bambu scanner). -/
def extractAmazonProducts (text : Str) : List InvoiceItem :=
  let lines := ((splitOnChar '\n' text).map pyStrip).filter (fun l => !l.isEmpty)
  extractAmazonAux lines 0 lines.length

/-- `re.search(r"Order #\s*(\d{3}-\d{7}-\d{7})", full_text)`. -/
def amazonOrderSearch (text : Str) : Option Str :=
  reSearchFirst
    (fun s => do
      let r ← stripLit (lit ("Order #")) s
      let a ← takeDigitsN 3 (r.dropWhile pyIsSpace)
      match a.2 with
      | '-' :: r2 => do
        let b ← takeDigitsN 7 r2
        match b.2 with
        | '-' :: r3 => do
          let c ← takeDigitsN 7 r3
          pure (a.1 ++ ['-'] ++ b.1 ++ ['-'] ++ c.1)
        | _ => none
      | _ => none)
    text

/-- English month names for `strptime`'s `%B` (matched case-insensitively). -/
def monthNames : List (Str × Nat) :=
  [(lit ("January"), 1), (lit ("February"), 2), (lit ("March"), 3),
    (lit ("April"), 4), (lit ("May"), 5), (lit ("June"), 6),
    (lit ("July"), 7), (lit ("August"), 8), (lit ("September"), 9),
    (lit ("October"), 10), (lit ("November"), 11), (lit ("December"), 12)]

/-- `re.search(r"Order placed\s+([A-Za-z]+\s+\d{1,2},\s+\d{4})", full_text)`
followed by `strptime(..., "%B %d, %Y")` inside `try/except ValueError: pass`:
an unparsable capture leaves the date `None`. -/
def amazonDateSearch (text : Str) : Option PyDate :=
  (reSearchFirst
    (fun s => do
      let r ← stripLit (lit ("Order placed")) s
      let ws1 ← takeWhile1 pyIsSpace r
      let mon ← takeWhile1 Char.isAlpha ws1.2
      let ws2 ← takeWhile1 pyIsSpace mon.2
      let dd ← takeWhile1 Char.isDigit ws2.2
      let day := dd.1.take 2
      let rest := dd.1.drop 2 ++ dd.2
      if dd.1.length > 2 then none
      else
        match rest with
        | ',' :: r4 => do
          let y ← takeDigitsN 4 (r4.dropWhile pyIsSpace)
          if (r4.takeWhile pyIsSpace).isEmpty then none
          else pure (mon.1, digitsToNat day, digitsToNat y.1)
        | _ => none)
    text).bind
    (fun mdy =>
      (monthNames.find? (fun nm => pyLower nm.1 = pyLower mdy.1)).bind
        (fun nm => strptimeYMD mdy.2.2 nm.2 mdy.2.1))

/-- `InvoiceParser.parse_amazon_invoice`, from the extracted PDF text on
(never raises: the date parse failure is swallowed). -/
def parseAmazonInvoiceText (fullText : Str) : InvoiceResult :=
  { order_number := amazonOrderSearch fullText,
    order_date := amazonDateSearch fullText,
    vendor := lit ("Amazon"),
    items := extractAmazonProducts fullText }

/-! ## Vendor detection and dispatch -/

/-- `InvoiceParser.detect_vendor`, from the first page's extracted text
(`""` when the PDF has no pages). -/
def detectVendor (pages : List Str) : Option Str :=
  let fl := pyLower (pages.headD [])
  if containsSub (lit ("bambulab")) fl ∨ containsSub (lit ("bambu lab")) fl then
    some (lit ("bambu"))
  else if containsSub (lit ("amazon")) fl then some (lit ("amazon"))
  else none

/-- `full_text` accumulation: every page's text followed by a newline. -/
def fullTextOf (pages : List Str) : Str :=
  pages.foldl (fun acc p => acc ++ p ++ ['\n']) []

/-- `InvoiceParser.parse_invoice`: auto-detect the vendor and dispatch; an
unrecognised vendor raises `ValueError("Unknown or unsupported invoice
vendor")`. -/
def parseInvoicePages (pages : List Str) : Except PErr InvoiceResult :=
  match detectVendor pages with
  | none => .error .unknownVendor
  | some v =>
    if v = lit ("bambu") then parseBambuInvoiceText (fullTextOf pages)
    else if v = lit ("amazon") then .ok (parseAmazonInvoiceText (fullTextOf pages))
    else .error .unknownVendor

/-! ## Label field extraction (`backend/ocr_service.py`, `LabelParser`) -/

/-- The four supported label brands (the keys of `BRAND_PATTERNS`). -/
inductive Brand
  | esun
  | sunlu
  | bambu
  | jayo
deriving DecidableEq

/-- The display names of `parse_label`'s `brand_names` mapping. -/
def brandName : Brand → Str
  | .esun => lit ("eSUN")
  | .sunlu => lit ("Sunlu")
  | .bambu => lit ("Bambu Lab")
  | .jayo => lit ("JAYO")

/-- `text.lower()` with spaces, newlines, hyphens and underscores removed
(`detect_brand`'s `text_no_space`). -/
def textNoSpace (t : Str) : Str :=
  (pyLower t).filter (fun c => !(c == ' ' || c == '\n' || c == '-' || c == '_'))

/-- `LabelParser.detect_brand`. -/
def detectBrand (text : Str) : Option Brand :=
  if text.isEmpty then none
  else
    let tl := pyLower text
    let ns := textNoSpace text
    let bambuIndicators :=
      containsSub (lit ("bambu")) ns ∨ containsSub (lit ("bambulab")) ns ∨
      containsSub (lit ("bambu lab")) tl ∨ containsSub (lit ("bam bu")) tl ∨
      ((containsSub (lit ("hifé")) tl ∨ containsSub (lit ("hife")) tl) ∧
        (containsSub (lit ("230")) tl ∨ containsSub (lit ("260")) tl) ∧
        (containsSub (lit ("made in china")) tl ∨ containsSub (lit ("made in")) tl)) ∨
      (containsSub (lit ("230")) tl ∧ containsSub (lit ("260")) tl ∧
        (containsSub (lit ("1.75")) tl ∨ containsSub (lit ("1,75")) tl ∨
          containsSub (lit ("diameter")) tl) ∧
        (containsSub (lit ("made in china")) tl ∨ containsSub (lit ("filament")) tl))
    if bambuIndicators then some .bambu
    else if containsSub (lit ("esun")) ns ∨ containsSub (lit ("e-sun")) tl ∨
        containsSub (lit ("e sun")) tl ∨ containsSub (lit ("e.sun")) tl then some .esun
    else if containsSub (lit ("jayo")) ns ∨ containsSub (lit ("jayo")) tl ∨
        containsSub (lit ("jayopetg")) ns ∨ containsSub (lit ("ty jayo")) tl then some .jayo
    else if containsSub (lit ("sunlu")) ns ∨ containsSub (lit ("sun lu")) tl ∨
        containsSub (lit ("sunluplasd")) ns then some .sunlu
    else none

/-- Tokens of the hand-compiled material regexes: a literal, `[\s]+`, or
`[\s-]?`. -/
inductive RTok
  | word (s : String)
  | wsPlus
  | wsHyphenOpt

/-- Match a token sequence (case-insensitively, with the engine's greedy
backtracking on `[\s-]?`), returning matched characters and the rest. -/
def matchToks : List RTok → Str → Option (Str × Str)
  | [], s => some ([], s)
  | .word l :: ts, s => do
    let mr ← stripLitCI (lit l) s
    let rest ← matchToks ts mr.2
    pure (mr.1 ++ rest.1, rest.2)
  | .wsPlus :: ts, s => do
    let ws ← takeWhile1 pyIsSpace s
    let rest ← matchToks ts ws.2
    pure (ws.1 ++ rest.1, rest.2)
  | .wsHyphenOpt :: ts, s =>
    match s with
    | [] => matchToks ts []
    | c :: cs =>
      if pyIsSpace c || c == '-' then
        match matchToks ts cs with
        | some r => some (c :: r.1, r.2)
        | none => matchToks ts (c :: cs)
      else matchToks ts (c :: cs)

/-- The alternatives of each brand's `material` pattern, in pattern order. -/
def materialAlternatives : Brand → List (List RTok)
  | .esun =>
    [[.word ("PLA+")], [.word ("PLA")], [.word ("ABS")], [.word ("PETG")], [.word ("TPU")]]
  | .sunlu =>
    [[.word ("SILK"), .wsPlus, .word ("PLA")], [.word ("PLA+")], [.word ("PLA")],
      [.word ("ABS")], [.word ("PETG")], [.word ("TPU")]]
  | .bambu =>
    [[.word ("PETG"), .wsHyphenOpt, .word ("HF")], [.word ("PETG")],
      [.word ("PLA"), .wsHyphenOpt, .word ("Basic")],
      [.word ("PLA"), .wsHyphenOpt, .word ("Matte")],
      [.word ("PLA"), .wsHyphenOpt, .word ("Silk")],
      [.word ("PLA")], [.word ("ABS")], [.word ("TPU")], [.word ("ASA")]]
  | .jayo =>
    [[.word ("PETG")], [.word ("PLA+")], [.word ("PLA")], [.word ("ABS")], [.word ("TPU")]]

/-- `re.search(patterns["material"], text, re.IGNORECASE)`: leftmost position,
first matching alternative; the whole match is group 1. -/
def materialPatternSearch (b : Brand) (text : Str) : Option Str :=
  reSearchFirst
    (fun s => (materialAlternatives b).findSome? (fun alt => (matchToks alt s).map Prod.fst))
    text

/-- Material normalisation of `parse_label`: uppercase, hyphens to spaces,
whitespace collapsed. -/
def normalizeMaterial (m : Str) : Str :=
  wsNormalize ((pyUpper m).map (fun c => if c == '-' then ' ' else c))

/-- `re.search(r'(?:Filament Code|Code)[\s:]*(\d+)', text, re.IGNORECASE)`. -/
def filamentCodeSearch (text : Str) : Option Str :=
  reSearchFirst
    (fun s =>
      (match stripLitCI (lit ("Filament Code")) s with
        | some mr => some mr.2
        | none => (stripLitCI (lit ("Code")) s).map Prod.snd).bind
        (fun r =>
          (takeWhile1 Char.isDigit (r.dropWhile (fun c => pyIsSpace c || c == ':'))).map
            Prod.fst))
    text

/-- Bambu filament-code prefixes to material families. -/
def codeToMaterial (code : Str) : Option Str :=
  match code with
  | [] => none
  | c :: _ =>
    if c == '1' then some (lit ("PLA"))
    else if c == '2' then some (lit ("PETG"))
    else if c == '5' then some (lit ("TPU"))
    else if c == '3' then some (lit ("ABS"))
    else none

/-- The material extraction of `parse_label`: brand pattern, then (for Bambu)
the filament-code heuristic, then compound-token fallbacks on the uppercased
text, then the Bambu `"PLA"` default. -/
def materialField (b : Brand) (text : Str) : Option Str :=
  match materialPatternSearch b text with
  | some m => some (normalizeMaterial m)
  | none =>
    let viaCode : Option Str :=
      if b = .bambu then (filamentCodeSearch text).bind codeToMaterial else none
    match viaCode with
    | some m => some m
    | none =>
      let tu := pyUpper text
      if containsSub (lit ("PETG HF")) tu ∨ containsSub (lit ("PETGHF")) tu ∨
          containsSub (lit ("PETG-HF")) tu then some (lit ("PETG HF"))
      else if containsSub (lit ("PLA+")) tu ∨ containsSub (lit ("PLA +")) tu ∨
          containsSub (lit ("PLA PLUS")) tu then some (lit ("PLA+"))
      else if containsSub (lit ("PETG")) tu then some (lit ("PETG"))
      else if containsSub (lit ("PLA")) tu then some (lit ("PLA"))
      else if containsSub (lit ("ABS")) tu then some (lit ("ABS"))
      else if containsSub (lit ("TPU")) tu then some (lit ("TPU"))
      else if b = .bambu then some (lit ("PLA"))
      else none

/-- `CHINESE_COLOR_MAP`, in insertion order. -/
def chineseColorMap : List (String × String) :=
  [("黑色", "Black"), ("白色", "White"), ("红色", "Red"), ("蓝色", "Blue"),
    ("绿色", "Green"), ("黄色", "Yellow"), ("橙色", "Orange"), ("紫色", "Purple"),
    ("灰色", "Grey"), ("银色", "Silver"), ("金色", "Gold"), ("粉色", "Pink"),
    ("棕色", "Brown"), ("自然色", "Natural"), ("透明", "Transparent"),
    ("青色", "Cyan"), ("洋红色", "Magenta")]

/-- The OCR-misspelling correction table, in insertion order. -/
def colorCorrections : List (String × String) :=
  [("yelow", "Yellow"), ("yellw", "Yellow"), ("yello", "Yellow"),
    ("olve", "Olive"), ("oliv", "Olive"), ("gren", "Green"), ("grene", "Green"),
    ("blak", "Black"), ("whit", "White"), ("whte", "White")]

/-- `common_colors` of `parse_label`. -/
def commonColors : List String :=
  ["White", "Black", "Red", "Blue", "Green", "Yellow", "Orange", "Purple",
    "Grey", "Gray", "Silver", "Gold", "Pink", "Brown", "Natural", "Transparent",
    "Cyan", "Magenta", "Olive"]

/-- Python regex word characters (`\w`): ASCII alphanumerics, underscore, and
non-ASCII letters — the only non-ASCII characters on these labels are CJK
letters and accented letters, which are all word characters. -/
def isWordChar (c : Char) : Bool := c.isAlpha || c.isDigit || c == '_' || c.toNat ≥ 128

/-- Core of the whole-word search `re.search(r'\b' + color + r'\b', text,
re.IGNORECASE)`; `prevIsWord` tracks whether the previous character is a word
character. -/
def wholeWordCIAux (w : Str) (prevIsWord : Bool) : Str → Bool
  | [] => false
  | c :: rest =>
    (!prevIsWord &&
      (match stripLitCI w (c :: rest) with
        | some mr =>
          match mr.2 with
          | [] => true
          | d :: _ => !isWordChar d
        | none => false)) ||
    wholeWordCIAux w (isWordChar c) rest

/-- Case-insensitive whole-word containment. -/
def wholeWordCI (w : Str) (text : Str) : Bool := wholeWordCIAux w false text

/-- The generic trailing alternative `[A-Z][a-z]+` of the colour patterns:
under `re.IGNORECASE` this is any letter followed by one or more letters,
matched greedily. -/
def genericColorToken (s : Str) : Option Str :=
  match s with
  | [] => none
  | c :: cs =>
    if c.isAlpha then (takeWhile1 Char.isAlpha cs).map (fun t => c :: t.1) else none

/-- The named-colour alternatives of each brand's `color` pattern, in pattern
order (the trailing `[A-Z][a-z]+` alternative is handled separately). -/
def colorWordAlts : Brand → List String
  | .esun =>
    ["White", "Black", "Red", "Blue", "Green", "Yellow", "Orange", "Purple",
      "Grey", "Gray", "Transparent", "Natural", "Silver", "Gold", "Pink",
      "Brown", "Cyan", "Magenta"]
  | .sunlu =>
    ["White", "Black", "Red", "Blue", "Green", "Yellow", "Orange", "Purple",
      "Grey", "Gray", "Silver", "Gold", "Pink", "Brown", "Cyan", "Magenta"]
  | .bambu =>
    ["Black", "White", "Red", "Blue", "Green", "Yellow", "Orange", "Purple",
      "Grey", "Gray", "Natural", "Transparent", "Silver", "Gold", "Pink",
      "Brown", "Cyan", "Magenta"]
  | .jayo =>
    ["Black", "White", "Red", "Blue", "Green", "Yellow", "Orange", "Purple",
      "Grey", "Gray", "Natural", "Transparent", "Silver", "Gold", "Pink",
      "Brown", "Cyan", "Magenta", "Olive", "Olve"]

/-- The capture group of a colour pattern at one position: named colours in
order, then the generic `[A-Z][a-z]+` token. -/
def colorGroupAt (b : Brand) (s : Str) : Option Str :=
  match (colorWordAlts b).findSome? (fun w => (stripLitCI (lit w) s).map Prod.fst) with
  | some m => some m
  | none => genericColorToken s

/-- One position of the eSUN colour pattern, whose optional prefix
`(?:Printers,?\s+|,\s+)?` is tried greedily in pattern order. -/
def esunColorTryAt (s : Str) : Option Str :=
  match (do
      let p ← stripLitCI (lit ("Printers")) s
      let afterComma :=
        match p.2 with
        | ',' :: r => some r
        | _ => none
      match afterComma with
      | some r =>
        match (do
            let ws ← takeWhile1 pyIsSpace r
            colorGroupAt Brand.esun ws.2) with
        | some m => some m
        | none => do
          let ws ← takeWhile1 pyIsSpace p.2
          colorGroupAt Brand.esun ws.2
      | none => do
        let ws ← takeWhile1 pyIsSpace p.2
        colorGroupAt Brand.esun ws.2) with
  | some m => some m
  | none =>
    match (match s with
      | ',' :: r => do
        let ws ← takeWhile1 pyIsSpace r
        colorGroupAt Brand.esun ws.2
      | _ => none) with
    | some m => some m
    | none => colorGroupAt Brand.esun s

/-- `re.search(patterns["color"], text, re.IGNORECASE)`, capture group 1. -/
def colorPatternSearch (b : Brand) (text : Str) : Option Str :=
  match b with
  | .esun => reSearchFirst esunColorTryAt text
  | _ => reSearchFirst (colorGroupAt b) text

/-- The `invalid_patterns` filter for colour candidates:
`^[A-Z0-9]{1,3}$` (case-sensitive) or a brand/material-name prefix
(case-insensitive). -/
def colorInvalid (c : Str) : Bool :=
  (decide (1 ≤ c.length) && decide (c.length ≤ 3) &&
    c.all (fun ch => ch.isUpper || ch.isDigit)) ||
  ciStartsAny
    [lit ("esun"), lit ("sunlu"), lit ("bambu"), lit ("pla"), lit ("petg"),
      lit ("abs"), lit ("tpu"), lit ("filament")] c

/-- `re.search(r'(?:With\s+Spool|Spool)[\s:]+([A-Z][a-z]+)', text,
re.IGNORECASE)`, then requiring the capture to be literally in
`common_colors`. -/
def spoolColorSearch (text : Str) : Option Str :=
  (reSearchFirst
    (fun s =>
      (match (do
          let w ← stripLitCI (lit ("With")) s
          let ws ← takeWhile1 pyIsSpace w.2
          stripLitCI (lit ("Spool")) ws.2) with
        | some m => some m.2
        | none => (stripLitCI (lit ("Spool")) s).map Prod.snd).bind
        (fun r2 => do
          let sep ← takeWhile1 (fun c => pyIsSpace c || c == ':') r2
          genericColorToken sep.2))
    text).bind
    (fun pc => if commonColors.any (fun c => lit c = pc) then some pc else none)

/-- The colour extraction of `parse_label`: Chinese colour names (Bambu), OCR
misspelling corrections, whole-word common colours, the Bambu spool pattern,
then the brand-specific regex with the invalid-candidate filter. -/
def colorField (b : Brand) (text : Str) : Option Str :=
  let viaChinese : Option Str :=
    if b = .bambu then
      (chineseColorMap.find? (fun p => containsSub (lit p.1) text)).map (fun p => lit p.2)
    else none
  match viaChinese with
  | some c => some c
  | none =>
    let tl := pyLower text
    match (colorCorrections.find? (fun p => containsSub (lit p.1) tl)).map (fun p => lit p.2) with
    | some c => some c
    | none =>
      match (commonColors.find? (fun c => wholeWordCI (lit c) text)).map lit with
      | some c => some c
      | none =>
        let viaSpool : Option Str := if b = .bambu then spoolColorSearch text else none
        match viaSpool with
        | some c => some c
        | none =>
          (colorPatternSearch b text).bind
            (fun cand0 =>
              let cand := pyStrip cand0
              if ¬ colorInvalid cand ∧ cand.length > 3 then some (pyTitle cand) else none)

/-- The standard diameter literals of the patterns, with their values. -/
def diamLitVal : List (String × ℚ) :=
  [("1.75", mkRat 7 4), ("2.85", mkRat 57 20), ("3.0", mkRat 3 1)]

/-- Match `(1\.75|2\.85|3\.0)` at this position (case-irrelevant digits). -/
def diamNumAt (s : Str) : Option (ℚ × Str) :=
  diamLitVal.findSome? (fun lv => (stripLit (lit lv.1) s).map (fun r => (lv.2, r)))

/-- Match `[\s]?UNIT` after a number, greedily with backtracking. -/
def optWsThenLit (u : Str) (s : Str) : Bool :=
  match s with
  | [] => false
  | c :: cs =>
    if pyIsSpace c then pyStarts u cs || pyStarts u (c :: cs)
    else pyStarts u (c :: cs)

/-- `re.search(patterns["diameter"], text)` (case-sensitive): for every brand
the `mm` branch, for Bambu and JAYO also the `毫米` branch, alternatives in
pattern order. -/
def brandDiameterSearch (b : Brand) (text : Str) : Option ℚ :=
  reSearchFirst
    (fun s =>
      (diamNumAt s).bind
        (fun vr =>
          if optWsThenLit (lit ("mm")) vr.2 then some vr.1
          else if (b = .bambu ∨ b = .jayo) ∧ optWsThenLit (lit ("毫米")) vr.2 then some vr.1
          else none))
    text

/-- `re.search(r'(1\.75|2\.85|3\.0)[\s]*(?:mm|毫米)', text, re.IGNORECASE)`. -/
def fallbackDiameterSearch (text : Str) : Option ℚ :=
  reSearchFirst
    (fun s =>
      (diamNumAt s).bind
        (fun vr =>
          let r := vr.2.dropWhile pyIsSpace
          if (stripLitCI (lit ("mm")) r).isSome || pyStarts (lit ("毫米")) r then some vr.1
          else none))
    text

/-- Match `DIGITS\s*mm` (case-insensitively) at this position. -/
def digitsWsMM (dgs : String) (s : Str) : Bool :=
  match stripLit (lit dgs) s with
  | none => false
  | some r => (stripLitCI (lit ("mm")) (r.dropWhile pyIsSpace)).isSome

/-- Match `1\s*\.\s*75\s*mm`-style spaced decimals at this position. -/
def spacedDecimalMM (a b2 : String) (s : Str) : Bool :=
  match stripLit (lit a) s with
  | none => false
  | some r =>
    match r.dropWhile pyIsSpace with
    | '.' :: r2 => digitsWsMM b2 (r2.dropWhile pyIsSpace)
    | _ => false

/-- One position of the misread-diameter pattern
`[{\[]?\s*75\s*mm|175\s*mm|1\s*\.\s*75\s*mm` (and the `85` variant): the
optional bracket is consumed greedily then backtracked. -/
def misreadDiaAt (a b2 c3 : String) (s : Str) : Bool :=
  (match s with
    | '{' :: r => digitsWsMM a (r.dropWhile pyIsSpace)
    | '[' :: r => digitsWsMM a (r.dropWhile pyIsSpace)
    | _ => false) ||
  digitsWsMM a (s.dropWhile pyIsSpace) ||
  digitsWsMM b2 s ||
  spacedDecimalMM c3 a s

/-- Existence of a `75mm`-style misread (value 1.75). -/
def misread175 (text : Str) : Bool :=
  (reSearchFirst (fun s => if misreadDiaAt ("75") ("175") ("1") s then some () else none)
    text).isSome

/-- Existence of an `85mm`-style misread (value 2.85). -/
def misread285 (text : Str) : Bool :=
  (reSearchFirst (fun s => if misreadDiaAt ("85") ("285") ("2") s then some () else none)
    text).isSome

/-- `re.search(r'\(Diameter\)\s*([0-9.]+)', text, re.IGNORECASE)`: the raw
captured digit/dot string. -/
def diameterSectionSearch (text : Str) : Option Str :=
  reSearchFirst
    (fun s => do
      let m ← stripLitCI (lit ("(Diameter)")) s
      let cap ← takeWhile1 (fun c => c.isDigit || c == '.') (m.2.dropWhile pyIsSpace)
      pure cap.1)
    text

/-- `min(standard_diameters, key=lambda x: abs(diameter_value - x))`: the first
minimum wins ties, as Python's `min` does. -/
def closestStandard (v : ℚ) : ℚ :=
  [mkRat 57 20, mkRat 3 1].foldl
    (fun best x => if ratAbsSub v x < ratAbsSub v best then x else best) (mkRat 7 4)

/-- The misread-correction analysis of a `(Diameter)` capture value
(`ocr_service.py` lines 584-606). -/
def diameterSectionValue (v : ℚ) : Option ℚ :=
  if 4 ≤ v ∧ v ≤ 5 then
    if ratAbsSub v (mkRat 19 4) < mkRat 1 2 then some (mkRat 7 4)
    else if ratAbsSub v (mkRat 97 20) < mkRat 1 2 then some (mkRat 57 20)
    else some (mkRat 7 4)
  else if v = mkRat 7 4 ∨ v = mkRat 57 20 ∨ v = mkRat 3 1 then some v
  else if ratAbsSub v (closestStandard v) < mkRat 1 2 then some (closestStandard v)
  else none

/-- The diameter extraction of `parse_label`: brand pattern, generic fallback,
misread `75mm`/`85mm` variants, the `(Diameter)` digit-confusion correction,
then the Bambu 1.75 default.  A malformed `(Diameter)` capture makes `float()`
raise, which `parse_label` converts into an `OCRError`. -/
def diameterField (b : Brand) (text : Str) : Except Unit (Option ℚ) :=
  match brandDiameterSearch b text with
  | some v => .ok (some v)
  | none =>
    match fallbackDiameterSearch text with
    | some v => .ok (some v)
    | none =>
      if misread175 text then .ok (some (mkRat 7 4))
      else if misread285 text then .ok (some (mkRat 57 20))
      else
        let viaSection : Except Unit (Option ℚ) :=
          match diameterSectionSearch text with
          | none => .ok none
          | some cap =>
            match pyFloat cap with
            | none => .error ()
            | some v => .ok (diameterSectionValue v)
        match viaSection with
        | .error e => .error e
        | .ok r => .ok (if b = .bambu ∧ r = none then some (mkRat 7 4) else r)

/-- Match exactly `n` characters of a class. -/
def takeClassN (p : Char → Bool) : Nat → Str → Option (Str × Str)
  | 0, s => some ([], s)
  | _ + 1, [] => none
  | n + 1, c :: cs =>
    if p c then (takeClassN p n cs).map (fun mr => (c :: mr.1, mr.2)) else none

/-- `re.search(patterns["barcode"], text)` for eSUN:
`X0[A-Z0-9IO]{2}[A-Z0-9IO]{2}[A-Z0-9IO]{4}` (the `I`/`O` are already covered
by `A-Z`), case-sensitive. -/
def esunBarcodeSearch (text : Str) : Option Str :=
  reSearchFirst
    (fun s =>
      match s with
      | 'X' :: '0' :: r =>
        (takeClassN (fun c => c.isUpper || c.isDigit) 8 r).map
          (fun mr => 'X' :: '0' :: mr.1)
      | _ => none)
    text

/-- `re.search(patterns["barcode"], text)` for Sunlu: `X[0-9]{4}[A-Z0-9]{6}`,
case-sensitive. -/
def sunluBarcodeSearch (text : Str) : Option Str :=
  reSearchFirst
    (fun s =>
      match s with
      | 'X' :: r => do
        let d4 ← takeClassN Char.isDigit 4 r
        let a6 ← takeClassN (fun c => c.isUpper || c.isDigit) 6 d4.2
        pure ('X' :: d4.1 ++ a6.1)
      | _ => none)
    text

/-- The loosened fallback pattern
`X[0O][0O][0-9A-Z]{2}[0-9A-Z]{2}[0-9A-Z]{4}` under `re.IGNORECASE`. -/
def fallbackBarcodeSearch (text : Str) : Option Str :=
  reSearchFirst
    (fun s =>
      match s with
      | c :: r =>
        if c.toLower == 'x' then
          (takeClassN (fun d => d.toLower == '0' || d.toLower == 'o') 2 r).bind
            (fun z2 =>
              (takeClassN (fun d => d.isDigit || d.isAlpha) 8 z2.2).map
                (fun a8 => c :: z2.1 ++ a8.1))
        else none
      | [] => none)
    text

/-- The barcode extraction of `parse_label`: only brands whose pattern table
defines a barcode pattern are searched; the fallback result is uppercased with
`O` replaced by `0`. -/
def barcodeField (b : Brand) (text : Str) : Option Str :=
  let primary : Option (Option Str) :=
    match b with
    | .esun => some (esunBarcodeSearch text)
    | .sunlu => some (sunluBarcodeSearch text)
    | .bambu => none
    | .jayo => none
  match primary with
  | none => none
  | some (some bc) => some bc
  | some none =>
    (fallbackBarcodeSearch text).map
      (fun bc => (pyUpper bc).map (fun c => if c == 'O' then '0' else c))

/-- The dict returned by `LabelParser.parse_label`. -/
structure LabelResult where
  brand : Option Str
  material : Option Str
  color_name : Option Str
  diameter_mm : Option ℚ
  barcode : Option Str
  raw_text : Str
  ocr_confidence : ℚ
  strategy_used : Str
  error : Option Str
deriving DecidableEq

/-- The field-extraction part of `parse_label`, applied to the recognised text
and the winning strategy label: the short-text partial result, the
unknown-brand partial result, or the brand-specific extraction.  All three
paths set `ocr_confidence` to `0.0`, as the source does. -/
def extractFields (text strategyUsed : Str) : Except Unit LabelResult :=
  if text.isEmpty ∨ (pyStrip text).length < 5 then
    .ok { brand := none, material := none, color_name := none, diameter_mm := none,
          barcode := none, raw_text := text, ocr_confidence := 0,
          strategy_used := strategyUsed,
          error := some (lit ("No text detected in image. Please ensure the image is clear and contains readable text.")) }
  else
    match detectBrand text with
    | none =>
      .ok { brand := none, material := none, color_name := none, diameter_mm := none,
            barcode := none, raw_text := text, ocr_confidence := 0,
            strategy_used := strategyUsed,
            error := some (lit ("Could not detect brand. Detected text: ") ++
              text.take 200 ++ lit ("...")) }
    | some b =>
      match diameterField b text with
      | .error e => .error e
      | .ok dia =>
        .ok { brand := some (brandName b),
              material := materialField b text,
              color_name := colorField b text,
              diameter_mm := dia,
              barcode := barcodeField b text,
              raw_text := text,
              ocr_confidence := 0,
              strategy_used := strategyUsed,
              error := none }

/-! ## The multi-strategy OCR loop (`_extract_text_multiple_strategies`)

The recogniser and the image transforms are external native calls; they are
abstracted as an oracle giving, for every (strategy, PSM mode) configuration,
either the `(text, mean confidence)` pair `_run_ocr_with_config` returns or
`none` for a raised exception. -/

/-- The environment of one `parse_label` call: the outcome of every native
call the pipeline can make.  `prep s` tells whether preprocessing strategy `s`
succeeds on the image; `run s psm` is the outcome of `_run_ocr_with_config`;
the `fb*` fields are the last-resort `image_to_string` passes. -/
structure OCROracle where
  tesseractOk : Bool
  imageOk : Bool
  prep : Nat → Bool
  run : Nat → Nat → Option (Str × ℚ)
  prepBasicOk : Bool
  fbChi : Option Str
  fbEng : Option Str

/-- The strategies in the order the loop tries them, with their labels. -/
def strategyList : List (Nat × Str) :=
  [(1, lit ("strategy_1_moderate")), (4, lit ("strategy_4_minimal")),
    (2, lit ("strategy_2_grayscale")), (3, lit ("strategy_3_aggressive"))]

/-- `PSM_MODES`, in order of preference. -/
def psmModes : List Nat := [6, 11, 3, 7]

/-- The 16 (strategy, label, PSM) combinations in loop order. -/
def comboSeq : List (Nat × Str × Nat) :=
  strategyList.flatMap (fun sn => psmModes.map (fun p => (sn.1, sn.2, p)))

/-- The running best-candidate accumulator. -/
structure BestState where
  text : Str
  conf : ℚ
  strat : Str
  psm : Nat
deriving DecidableEq

/-- Initial accumulator values of the loop. -/
def initBest : BestState := { text := [], conf := 0, strat := lit ("unknown"), psm := 6 }

/-- The `f"{strategy_name}_psm{psm}"` label. -/
def stratPsmLabel (sname : Str) (psm : Nat) : Str :=
  sname ++ lit ("_psm") ++ Nat.toDigits 10 psm

/-- The candidate loop over the remaining combinations: returns either the
early-exit result (`Sum.inl`) or the final accumulator (`Sum.inr`), paired
with the list of combinations on which `_run_ocr_with_config` was actually
invoked (prep-failed strategies are skipped without an attempt). -/
def loopCombos (o : OCROracle) : List (Nat × Str × Nat) → BestState →
    (Sum (Str × Str) BestState) × List (Nat × Nat)
  | [], b => (.inr b, [])
  | c :: rest, b =>
    if ¬ o.prep c.1 then loopCombos o rest b
    else
      match o.run c.1 c.2.2 with
      | none =>
        let r := loopCombos o rest b
        (r.1, (c.1, c.2.2) :: r.2)
      | some tc =>
        if ¬ tc.1.isEmpty ∧ 10 < (pyStrip tc.1).length then
          if tc.2 > b.conf ∨ (0 < tc.2 ∧ b.text.length < tc.1.length) then
            if 80 < tc.2 then
              (.inl (tc.1, stratPsmLabel c.2.1 c.2.2), [(c.1, c.2.2)])
            else
              let r := loopCombos o rest
                { text := tc.1, conf := tc.2, strat := c.2.1, psm := c.2.2 }
              (r.1, (c.1, c.2.2) :: r.2)
          else
            let r := loopCombos o rest b
            (r.1, (c.1, c.2.2) :: r.2)
        else
          let r := loopCombos o rest b
          (r.1, (c.1, c.2.2) :: r.2)

/-- `_extract_text_multiple_strategies`: an unreadable image raises; then the
16-combination loop; then, when no meaningful text was found, the last-resort
default-mode passes; total exhaustion raises `OCRError`. -/
def extractTextMS (o : OCROracle) : Except Unit (Str × Str) :=
  if ¬ o.imageOk then .error ()
  else
    match (loopCombos o comboSeq initBest).1 with
    | .inl r => .ok r
    | .inr b =>
      if ¬ b.text.isEmpty then .ok (b.text, stratPsmLabel b.strat b.psm)
      else if ¬ o.prepBasicOk then .error ()
      else
        match o.fbChi with
        | some t => .ok (t, lit ("fallback"))
        | none =>
          match o.fbEng with
          | some t => .ok (t, lit ("fallback_eng"))
          | none => .error ()

/-- The combinations on which OCR was actually attempted during one call. -/
def attemptedCombos (o : OCROracle) : List (Nat × Nat) :=
  (loopCombos o comboSeq initBest).2

/-- `LabelParser.parse_label` over the oracle: the Tesseract availability
check, text extraction, then field extraction. -/
def parseLabelO (o : OCROracle) : Except Unit LabelResult :=
  if ¬ o.tesseractOk then .error ()
  else
    match extractTextMS o with
    | .error e => .error e
    | .ok ts => extractFields ts.1 ts.2

/-! ## Concrete fixtures used by the verification theorems -/

/-- The end-to-end Bambu invoice text of the spec's testable-properties list. -/
def c6text : Str :=
  lit ("Order Number: ABC123\nInvoice Date: 2024-03-15\nPLA Basic\nWA STATE TAX\nSKU: PLA-001\nTAX\nSPLFREE 2 $19.99\nWA CITY\nVariant: Orange (10300) / Refill /")

/-- The single item the scanner extracts from `c6text`. -/
def c6item : InvoiceItem :=
  { brand := lit ("Bambu Lab"), material := lit ("PLA BASIC"),
    color_name := lit ("Orange"), diameter_mm := mkRat 7 4,
    sku := some (lit ("PLA-001")), quantity := 2, price := some (mkRat 1999 100),
    product_line := lit ("PLA Basic") }

/-- A minimal Bambu product block whose quantity/price line reads `0`. -/
def c8text : Str := lit ("PLA\nSPL 0 $5.00\nVariant: Red (1) /")

/-- The item extracted from `c8text`: its quantity is the literal zero. -/
def c8item : InvoiceItem :=
  { brand := lit ("Bambu Lab"), material := lit ("PLA"),
    color_name := lit ("Red"), diameter_mm := mkRat 7 4,
    sku := none, quantity := 0, price := some (mkRat 5 1),
    product_line := lit ("PLA") }

/-- The same block with quantity `1`, used to witness the amended quantity
invariant. -/
def c8wText : Str := lit ("PLA\nSPL 1 $5.00\nVariant: Red (1) /")

/-- The item extracted from `c8wText`. -/
def c8wItem : InvoiceItem :=
  { brand := lit ("Bambu Lab"), material := lit ("PLA"),
    color_name := lit ("Red"), diameter_mm := mkRat 7 4,
    sku := none, quantity := 1, price := some (mkRat 5 1),
    product_line := lit ("PLA") }

/-- An Amazon invoice fragment whose description block resolves no colour. -/
def c2AmazonText : Str := lit ("PLA filament spool\nSold by: X\n$19.99")

/-- The item the Amazon scanner emits for `c2AmazonText`: colour and brand are
the placeholder `"Unknown"`. -/
def c2AmazonItem : InvoiceItem :=
  { brand := lit ("Unknown"), material := lit ("PLA"),
    color_name := lit ("Unknown"), diameter_mm := mkRat 7 4,
    sku := none, quantity := 1, price := some (mkRat 1999 100),
    product_line := lit ("PLA filament spool...") }

/-- A clean Sunlu label text whose recognition wins with confidence 90. -/
def sunluText : Str := lit ("SUNLU PLA+ Yellow 1.75mm")

/-- An oracle whose first combination recognises `sunluText` at confidence
90. -/
def oC1 : OCROracle :=
  { tesseractOk := true, imageOk := true, prep := fun _ => true,
    run := fun s p => if s = 1 ∧ p = 6 then some (sunluText, 90) else none,
    prepBasicOk := true, fbChi := none, fbEng := none }

/-- The label result `parse_label` produces in the `oC1` environment; its
`ocr_confidence` is 0 although the winning attempt reported 90. -/
def rC1 : LabelResult :=
  { brand := some (lit ("Sunlu")), material := some (lit ("PLA+")),
    color_name := some (lit ("Yellow")), diameter_mm := some (mkRat 7 4),
    barcode := none, raw_text := sunluText, ocr_confidence := 0,
    strategy_used := lit ("strategy_1_moderate_psm6"), error := none }

/-- Fifteen characters of recognised text. -/
def longA : Str := List.replicate 15 'A'

/-- Twenty characters of recognised text. -/
def longB : Str := List.replicate 20 'B'

/-- An oracle answering only the first two combinations, with the given texts
and confidences. -/
def twoComboOracle (t1 : Str) (c1 : ℚ) (t2 : Str) (c2 : ℚ) : OCROracle :=
  { tesseractOk := true, imageOk := true, prep := fun _ => true,
    run := fun s p =>
      if s = 1 ∧ p = 6 then some (t1, c1)
      else if s = 1 ∧ p = 11 then some (t2, c2) else none,
    prepBasicOk := true, fbChi := none, fbEng := none }

/-- A first candidate of confidence 50, then a longer one of confidence 10. -/
def oC3 : OCROracle := twoComboOracle longA 50 longB 10

/-- A five-character candidate of confidence 95, then a long candidate of
confidence 50. -/
def oC9 : OCROracle := twoComboOracle (lit ("short")) 95 longB 50

/-- A first combination with long text and confidence 90 (for the early-exit
witness). -/
def oC9w : OCROracle := twoComboOracle longB 90 longA 50

/-- The label result for the text `"Bambu Lab PETG HF"` (the compound token at
the leftmost material occurrence). -/
def rC5w : LabelResult :=
  { brand := some (lit ("Bambu Lab")), material := some (lit ("PETG HF")),
    color_name := none, diameter_mm := some (mkRat 7 4), barcode := none,
    raw_text := lit ("Bambu Lab PETG HF"), ocr_confidence := 0,
    strategy_used := lit ("s"), error := none }

/-! ## Verification theorems -/

/-- Justification of the computable `ratAbsSub`: it is the absolute
difference. -/
theorem ratAbsSub_eq (a b : ℚ) : ratAbsSub a b = |a - b| := by
  have ha : ((a.den : ℚ)) ≠ 0 := by exact_mod_cast a.den_nz
  have hb : ((b.den : ℚ)) ≠ 0 := by exact_mod_cast b.den_nz
  have hD : (0 : ℚ) < ((a.den : ℚ) * (b.den : ℚ)) := by positivity
  have hA : ((a.num : ℚ)) = a * (a.den : ℚ) := (div_eq_iff ha).mp (Rat.num_div_den a)
  have hB : ((b.num : ℚ)) = b * (b.den : ℚ) := (div_eq_iff hb).mp (Rat.num_div_den b)
  have key : ((a.num : ℚ) * (b.den : ℚ) - (b.num : ℚ) * (a.den : ℚ)) /
      ((a.den : ℚ) * (b.den : ℚ)) = a - b := by
    rw [div_eq_iff (ne_of_gt hD), hA, hB]
    ring
  rw [ratAbsSub, Rat.mkRat_eq_div]
  push_cast [Int.cast_natAbs]
  rw [← abs_of_pos hD, ← abs_div, key]

/-- Justification of the computable `decimalToRat`: it is the usual value of
the decimal literal `<ip>.<fp>`. -/
theorem decimalToRat_eq (ip fp : Str) :
    decimalToRat ip fp = (digitsToNat ip : ℚ) + (digitsToNat fp : ℚ) / (10 : ℚ) ^ fp.length := by
  have h10 : ((10 : ℚ)) ^ fp.length ≠ 0 := by positivity
  rw [decimalToRat, Rat.mkRat_eq_div]
  push_cast
  field_simp

/-- Claim C7: a PDF whose first-page text contains no vendor keyword gets no
vendor from `detect_vendor`, and `parse_invoice` raises the specific
`"Unknown or unsupported invoice vendor"` error — a hard failure, never a
partial result. -/
theorem C7_unknown_vendor_hard_failure (pages : List Str)
    (h1 : containsSub (lit ("bambulab")) (pyLower (pages.headD [])) = false)
    (h2 : containsSub (lit ("bambu lab")) (pyLower (pages.headD [])) = false)
    (h3 : containsSub (lit ("amazon")) (pyLower (pages.headD [])) = false) :
    detectVendor pages = none ∧
    parseInvoicePages pages = Except.error PErr.unknownVendor := by
  have hd : detectVendor pages = none := by
    simp only [List.headD_eq_head?_getD] at h1 h2 h3
    simp [detectVendor, h1, h2, h3]
  exact ⟨hd, by simp [parseInvoicePages, hd]⟩

/-- Witness for C7 at the concrete first page `"Hello World"`. -/
theorem C7_witness :
    detectVendor [lit ("Hello World")] = none ∧
    parseInvoicePages [lit ("Hello World")] = Except.error PErr.unknownVendor :=
  C7_unknown_vendor_hard_failure [lit ("Hello World")] (by decide) (by decide) (by decide)

/-- Helper for C1: every branch of the field extraction hard-codes the
`ocr_confidence` field to `0.0`. -/
theorem extractFields_zero_conf (t s : Str) (r : LabelResult)
    (h : extractFields t s = Except.ok r) : r.ocr_confidence = 0 := by
  unfold extractFields at h
  split at h
  · injection h with h2
    subst h2
    rfl
  · split at h
    · injection h with h2
      subst h2
      rfl
    · split at h
      · exact Except.noConfusion h
      · injection h with h2
        subst h2
        rfl

/-- Claim C1 (amended): whenever `parse_label` succeeds, the returned
`ocr_confidence` is 0.0 — the winning combination's mean token confidence is
used only to select a candidate inside `_extract_text_multiple_strategies`
and is never propagated into the result. -/
theorem C1_confidence_never_propagated (o : OCROracle) (r : LabelResult)
    (h : parseLabelO o = Except.ok r) : r.ocr_confidence = 0 := by
  unfold parseLabelO at h
  split at h
  · exact Except.noConfusion h
  · split at h
    · exact Except.noConfusion h
    · exact extractFields_zero_conf _ _ _ h

/-- Witness for C1 in the `oC1` environment. -/
theorem C1_witness : rC1.ocr_confidence = 0 :=
  C1_confidence_never_propagated oC1 rC1 (by rfl)

/-- A truthy optional string is some non-empty string. -/
theorem truthy_getD {o : Option Str} (h : truthyOptStr o = true) : o.getD [] ≠ [] := by
  cases o with
  | none => simp [truthyOptStr] at h
  | some s =>
    simp only [truthyOptStr, Bool.not_eq_true'] at h
    simpa [Option.getD] using (by simpa using h : s.isEmpty = false)

/-- Every item the Bambu scan emits passed the `if material and color_name`
truthiness guard, so both fields are non-empty. -/
theorem extractBambuAux_fields (lines : List Str) :
    ∀ fuel i items, extractBambuAux lines i fuel = Except.ok items →
      ∀ it ∈ items, it.material ≠ [] ∧ it.color_name ≠ [] := by
  intro fuel
  induction fuel with
  | zero =>
    intro i items h it hit
    simp only [extractBambuAux] at h
    split at h
    · exact Except.noConfusion h
    · injection h with h2
      subst h2
      simp at hit
  | succ fuel ih =>
    intro i items h it hit
    simp only [extractBambuAux] at h
    split at h
    case isTrue =>
      split at h
      case isTrue =>
        split at h
        · exact Except.noConfusion h
        · split at h
          · exact Except.noConfusion h
          · rename_i rest hrest
            split at h
            case isTrue hguard =>
              injection h with h2
              subst h2
              rcases List.mem_cons.mp hit with rfl | hmem
              · exact ⟨truthy_getD hguard.1, truthy_getD hguard.2⟩
              · exact ih _ _ hrest it hmem
            case isFalse =>
              injection h with h2
              subst h2
              exact ih _ _ hrest it hit
      case isFalse => exact ih _ _ h it hit
    case isFalse =>
      injection h with h2
      subst h2
      simp at hit

/-- A guarded line access stays inside the list. -/
theorem lineAt_mem (lines : List Str) (j : Nat) (h : j < lines.length) :
    lineAt lines j ∈ lines := by
  unfold lineAt
  rw [List.getD_eq_getElem lines [] h]
  exact List.getElem_mem h

/-- The quantity component of the quantity/price look-ahead is 1 (the default)
or the digits parsed from some line of the invoice. -/
theorem qtyPriceScan_qty (lines : List Str) (i : Nat)
    (hq : ∀ l ∈ lines, ∀ qp : Nat × ℚ, qtyPriceMatch l = some qp → 1 ≤ qp.1) :
    1 ≤ (qtyPriceScan lines i).1 := by
  unfold qtyPriceScan
  split
  case h_1 qp iNew heq =>
    obtain ⟨k, hk, hfk⟩ := List.exists_of_findSome?_eq_some heq
    have hklt : i + k < lines.length := by
      have := List.of_mem_filter hk
      simpa using this
    cases hm : qtyPriceMatch (lineAt lines (i + k)) with
    | none => rw [hm] at hfk; exact Option.noConfusion hfk
    | some qp0 =>
      rw [hm] at hfk
      have h2 : some (qp0, i + k + 1) = some (qp, iNew) := hfk
      injection h2 with h3
      have h1 : qp0 = qp := congrArg Prod.fst h3
      subst h1
      exact hq _ (lineAt_mem lines (i + k) hklt) qp0 hm
  case h_2 => exact le_refl 1

/-- Every item the Bambu scan emits has the default quantity 1 or a quantity
parsed from a quantity/price line of the invoice. -/
theorem extractBambuAux_qty (lines : List Str)
    (hq : ∀ l ∈ lines, ∀ qp : Nat × ℚ, qtyPriceMatch l = some qp → 1 ≤ qp.1) :
    ∀ fuel i items, extractBambuAux lines i fuel = Except.ok items →
      ∀ it ∈ items, 1 ≤ it.quantity := by
  intro fuel
  induction fuel with
  | zero =>
    intro i items h it hit
    simp only [extractBambuAux] at h
    split at h
    · exact Except.noConfusion h
    · injection h with h2
      subst h2
      simp at hit
  | succ fuel ih =>
    intro i items h it hit
    simp only [extractBambuAux] at h
    split at h
    case isTrue =>
      split at h
      case isTrue =>
        split at h
        · exact Except.noConfusion h
        · split at h
          · exact Except.noConfusion h
          · rename_i rest hrest
            split at h
            case isTrue hguard =>
              injection h with h2
              subst h2
              rcases List.mem_cons.mp hit with rfl | hmem
              · exact qtyPriceScan_qty lines _ hq
              · exact ih _ _ hrest it hmem
            case isFalse =>
              injection h with h2
              subst h2
              exact ih _ _ hrest it hit
      case isFalse => exact ih _ _ h it hit
    case isFalse =>
      injection h with h2
      subst h2
      simp at hit

/-- One Amazon scan position only ever emits items whose quantity is the
hard-coded 1. -/
theorem amazonItemsAt_qty (lines : List Str) (i : Nat) :
    ∀ it ∈ amazonItemsAt lines i, it.quantity = 1 := by
  intro it hit
  simp only [amazonItemsAt] at hit
  split at hit
  · simp at hit
  · split at hit
    · simp at hit
    · split at hit
      · rcases List.mem_singleton.mp hit with rfl
        rfl
      · simp at hit

/-- Every item the Amazon scan emits has quantity 1. -/
theorem extractAmazonAux_qty (lines : List Str) :
    ∀ fuel i it, it ∈ extractAmazonAux lines i fuel → it.quantity = 1 := by
  intro fuel
  induction fuel with
  | zero =>
    intro i it hit
    simp [extractAmazonAux] at hit
  | succ fuel ih =>
    intro i it hit
    simp only [extractAmazonAux] at hit
    split at hit
    · rcases List.mem_append.mp hit with hmem | hmem
      · exact amazonItemsAt_qty lines i it hmem
      · exact ih _ _ hmem
    · simp at hit

/-- The continuation step never moves the cursor backwards. -/
theorem contStep_le (lines : List Str) (pn : Str) (i : Nat) : i ≤ (contStep lines pn i).2 := by
  unfold contStep
  split
  · split
    · exact Nat.le_succ i
    · exact Nat.le_refl i
  · exact Nat.le_refl i

/-- A skip step never moves the cursor backwards. -/
theorem skipIfAt_le (cond : Str → Bool) (lines : List Str) (i : Nat) :
    i ≤ skipIfAt cond lines i := by
  unfold skipIfAt
  split
  · exact Nat.le_succ i
  · exact Nat.le_refl i

/-- The SKU step never moves the cursor backwards. -/
theorem skuStep_le (lines : List Str) (i : Nat) : i ≤ (skuStep lines i).2 := by
  unfold skuStep
  split
  · exact Nat.le_succ i
  · exact Nat.le_refl i

/-- The quantity/price look-ahead strictly advances the cursor. -/
theorem qtyPriceScan_lt (lines : List Str) (i : Nat) : i < (qtyPriceScan lines i).2.2 := by
  unfold qtyPriceScan
  split
  case h_1 qp iNew heq =>
    obtain ⟨k, _, hfk⟩ := List.exists_of_findSome?_eq_some heq
    cases hm : qtyPriceMatch (lineAt lines (i + k)) with
    | none => rw [hm] at hfk; exact Option.noConfusion hfk
    | some qp0 =>
      rw [hm] at hfk
      have h2 : some (qp0, i + k + 1) = some (qp, iNew) := hfk
      injection h2 with h3
      have h4 : i + k + 1 = iNew := congrArg Prod.snd h3
      show i < iNew
      omega
  case h_2 => exact Nat.lt_succ_self i

/-- A successful `WA CITY` step never moves the cursor backwards. -/
theorem waCityStep_le (lines : List Str) (i j : Nat) (h : waCityStep lines i = Except.ok j) :
    i ≤ j := by
  simp only [waCityStep] at h
  split at h
  · split at h
    · injection h with h2; omega
    · split at h
      · injection h with h2; omega
      · injection h with h2; omega
  · exact Except.noConfusion h

/-- The only error the `WA CITY` step raises is the out-of-bounds read. -/
theorem waCityStep_error (lines : List Str) (i : Nat) (e : PErr)
    (h : waCityStep lines i = Except.error e) : e = PErr.indexError := by
  simp only [waCityStep] at h
  split at h
  · split at h
    · exact Except.noConfusion h
    · split at h <;> exact Except.noConfusion h
  · injection h with h2
    exact h2.symm

/-- The variant loop never moves the cursor before the loop-entry position,
provided every look-ahead index is at or after it. -/
theorem variantLoopGo_le (lines : List Str) (i0 : Nat) :
    ∀ looks vl, (∀ x ∈ looks, i0 ≤ x) → i0 ≤ (variantLoopGo lines i0 vl looks).2 := by
  intro looks
  induction looks with
  | nil => intro vl _; exact Nat.le_succ i0
  | cons look rest ih =>
    intro vl hall
    have hlook : i0 ≤ look := hall look (List.mem_cons_self look rest)
    have htail : ∀ x ∈ rest, i0 ≤ x := fun x hx => hall x (List.mem_cons_of_mem _ hx)
    simp only [variantLoopGo]
    split
    · exact Nat.le_refl i0
    · split
      · exact Nat.le_refl i0
      · split
        · split
          · omega
          · exact ih _ htail
        · split
          · split
            · omega
            · exact ih _ htail
          · exact ih _ htail

/-- The variant step never moves the cursor backwards. -/
theorem variantStep_le (lines : List Str) (i0 : Nat) : i0 ≤ (variantStep lines i0).2 := by
  unfold variantStep
  apply variantLoopGo_le
  intro x hx
  rcases List.mem_filterMap.mp hx with ⟨k, _, hk⟩
  by_cases hik : i0 + k < lines.length
  · rw [if_pos hik] at hk
    injection hk with hk2
    omega
  · rw [if_neg hik] at hk
    exact Option.noConfusion hk

/-- With `fuel = lines.length` the scan never exhausts its fuel: the cursor
strictly increases on every outer iteration. -/
theorem extractBambuAux_no_fuel_error (lines : List Str) :
    ∀ fuel i, lines.length ≤ fuel + i →
      extractBambuAux lines i fuel ≠ Except.error PErr.internalFuel := by
  intro fuel
  induction fuel with
  | zero =>
    intro i hle hcon
    simp only [extractBambuAux] at hcon
    split at hcon
    · omega
    · exact Except.noConfusion hcon
  | succ fuel ih =>
    intro i hle hcon
    simp only [extractBambuAux] at hcon
    split at hcon
    case isTrue hi =>
      split at hcon
      case isTrue hmat =>
        split at hcon
        · rename_i e heq
          injection hcon with he
          subst he
          exact PErr.noConfusion (waCityStep_error _ _ _ heq)
        · rename_i i6 heq6
          split at hcon
          · rename_i e heq2
            injection hcon with he
            subst he
            refine ih _ ?_ heq2
            have hA := contStep_le lines (lineAt lines i) (i + 1)
            have hB := skipIfAt_le (fun l => containsSub (lit ("WA STATE")) l) lines
              (contStep lines (lineAt lines i) (i + 1)).2
            have hC := skuStep_le lines
              (skipIfAt (fun l => containsSub (lit ("WA STATE")) l) lines
                (contStep lines (lineAt lines i) (i + 1)).2)
            have hD := skipIfAt_le
              (fun l => containsSub (lit ("TAX")) l ∧ ¬ containsSub (lit ("WA STATE")) l)
              lines
              (skuStep lines
                (skipIfAt (fun l => containsSub (lit ("WA STATE")) l) lines
                  (contStep lines (lineAt lines i) (i + 1)).2)).2
            have hE := qtyPriceScan_lt lines
              (skipIfAt
                (fun l => containsSub (lit ("TAX")) l ∧ ¬ containsSub (lit ("WA STATE")) l)
                lines
                (skuStep lines
                  (skipIfAt (fun l => containsSub (lit ("WA STATE")) l) lines
                    (contStep lines (lineAt lines i) (i + 1)).2)).2)
            have hF := waCityStep_le lines _ _ heq6
            have hG := variantStep_le lines i6
            omega
          · rename_i rest heq2
            split at hcon <;> exact Except.noConfusion hcon
      case isFalse =>
        exact ih (i + 1) (by omega) hcon
    case isFalse =>
      exact Except.noConfusion hcon

/-- Claim C2 (amended): the Bambu invoice scanner emits an item only when both
`material` and `color_name` are resolved and non-empty (partial blocks are
silently discarded); the Amazon parser, by contrast, always emits an item for
a filament block, substituting the placeholder `"Unknown"` for an unresolved
colour. -/
theorem C2_item_fields_amended :
    (∀ text items, extractBambuProducts text = Except.ok items →
        ∀ it ∈ items, it.material ≠ [] ∧ it.color_name ≠ []) ∧
    (∀ desc price, (∀ c ∈ amazonColors, containsSub c (pyLower desc) = false) →
        (parseAmazonFilamentDescription desc price).color_name = lit ("Unknown")) := by
  constructor
  · intro text items h
    exact extractBambuAux_fields _ _ _ _ h
  · intro desc price h
    have hfil : amazonColors.filter (fun c => containsSub c (pyLower desc)) = [] := by
      rw [List.filter_eq_nil_iff]
      intro c hc
      simp [h c hc]
    simp only [parseAmazonFilamentDescription, hfil]
    rfl

/-- Witness for C2: a concrete Bambu item with both fields non-empty, and a
concrete colourless Amazon description mapped to the placeholder. -/
theorem C2_witness :
    c8wItem.material ≠ ([] : Str) ∧ c8wItem.color_name ≠ ([] : Str) ∧
    (parseAmazonFilamentDescription (lit ("PLA filament spool")) (mkRat 1999 100)).color_name
        = lit ("Unknown") :=
  ⟨(C2_item_fields_amended.1 c8wText [c8wItem] (by rfl) c8wItem (List.mem_singleton.mpr rfl)).1,
   (C2_item_fields_amended.1 c8wText [c8wItem] (by rfl) c8wItem (List.mem_singleton.mpr rfl)).2,
   C2_item_fields_amended.2 (lit ("PLA filament spool")) (mkRat 1999 100) (by decide)⟩

/-- Claim C8 (amended): every Amazon item has the hard-coded quantity 1; every
Bambu item's quantity is the default 1 or the integer parsed by the
quantity/price regex, which the scanner does not check for zero — so the
quantity is at least 1 exactly when every matching quantity digit group on the
invoice is non-zero. -/
theorem C8_quantity_amended :
    (∀ text it, it ∈ extractAmazonProducts text → it.quantity = 1) ∧
    (∀ text items, extractBambuProducts text = Except.ok items →
        (∀ l ∈ bambuLines text, ∀ qp : Nat × ℚ, qtyPriceMatch l = some qp → 1 ≤ qp.1) →
        ∀ it ∈ items, 1 ≤ it.quantity) := by
  constructor
  · intro text it hit
    exact extractAmazonAux_qty _ _ _ _ hit
  · intro text items h hq
    exact extractBambuAux_qty _ hq _ _ _ h

/-- Witness for C8 at concrete invoices for both vendors. -/
theorem C8_witness :
    c2AmazonItem.quantity = 1 ∧ 1 ≤ c8wItem.quantity :=
  ⟨C8_quantity_amended.1 c2AmazonText c2AmazonItem (by decide),
   C8_quantity_amended.2 c8wText [c8wItem] (by rfl)
     (by
       intro l hl qp hqp
       have hlines : bambuLines c8wText =
           [lit ("PLA"), lit ("SPL 1 $5.00"), lit ("Variant: Red (1) /")] := by rfl
       rw [hlines] at hl
       rcases List.mem_cons.mp hl with rfl | hl
       · rw [show qtyPriceMatch (lit ("PLA")) = none from rfl] at hqp
         exact Option.noConfusion hqp
       · rcases List.mem_cons.mp hl with rfl | hl
         · rw [show qtyPriceMatch (lit ("SPL 1 $5.00")) = some (1, mkRat 5 1) from rfl] at hqp
           injection hqp with h2
           subst h2
           exact le_refl 1
         · rcases List.mem_cons.mp hl with rfl | hl
           · rw [show qtyPriceMatch (lit ("Variant: Red (1) /")) = none from rfl] at hqp
             exact Option.noConfusion hqp
           · simp at hl)
     c8wItem (List.mem_singleton.mpr rfl)⟩

/-- Claim C6: applied to the invoice text `"Order Number: ABC123\nInvoice
Date: 2024-03-15\nPLA Basic\nWA STATE TAX\nSKU: PLA-001\nTAX\nSPLFREE 2
$19.99\nWA CITY\nVariant: Orange (10300) / Refill /"`, the Bambu invoice
parser returns order number `"ABC123"`, order date 2024-03-15, and exactly one
item with material `"PLA BASIC"`, colour `"Orange"`, quantity 2 and price
19.99. -/
theorem C6_end_to_end_scenario :
    parseBambuInvoiceText c6text =
      Except.ok
        { order_number := some (lit ("ABC123")),
          order_date := some { year := 2024, month := 3, day := 15 },
          vendor := lit ("Bambu Lab"),
          items := [c6item] } := by
  rfl

/-- Claim C10: evaluation of the Bambu line scanner at the failing input
`"PLA"` — a product line at the very end of the text.  The quantity/price
look-ahead exhausts, the cursor moves past the end of the line list, and the
`WA CITY` check reads `lines[i]` out of bounds, so the scanner raises
`IndexError` instead of returning an item list. -/
theorem C10_index_error_on_trailing_product :
    extractBambuProducts (lit ("PLA")) = Except.error PErr.indexError := by
  rfl

/-- Claim C4: evaluation of the label extractor on the two `(Diameter)`
misread texts.  A captured value of 4.75 resolves to 1.75 as the claim says,
but a captured value of 4.85 ALSO resolves to 1.75 — `abs(4.85 - 4.75) < 0.5`
sends it down the first correction branch, so the `4.85 → 2.85` branch the
source comments promise is unreachable. -/
theorem C4_diameter_correction_eval :
    (extractFields (lit ("Bambu Lab (Diameter) 4.75")) (lit ("s"))).map
        LabelResult.diameter_mm = Except.ok (some (mkRat 7 4)) ∧
    (extractFields (lit ("Bambu Lab (Diameter) 4.85")) (lit ("s"))).map
        LabelResult.diameter_mm = Except.ok (some (mkRat 7 4)) ∧
    mkRat 7 4 ≠ mkRat 57 20 := by
  refine ⟨rfl, rfl, by decide⟩

/-- Claim C5 counterexample: a brand-detected text containing both tokens
`PETG` and `PETG HF` whose material resolves to `"PETG"`, not `"PETG HF"`:
`re.search` is leftmost-first, so the earlier bare `PETG` wins over the later
compound token. -/
theorem C5_counterexample :
    containsSub (lit ("PETG")) (lit ("Bambu Lab PETG Red PETG HF")) = true ∧
    containsSub (lit ("PETG HF")) (lit ("Bambu Lab PETG Red PETG HF")) = true ∧
    (extractFields (lit ("Bambu Lab PETG Red PETG HF")) (lit ("s"))).map
        LabelResult.brand = Except.ok (some (lit ("Bambu Lab"))) ∧
    (extractFields (lit ("Bambu Lab PETG Red PETG HF")) (lit ("s"))).map
        LabelResult.material = Except.ok (some (lit ("PETG"))) := by
  refine ⟨by decide, by decide, rfl, rfl⟩

/-- Claim C2 counterexample: the Amazon scanner emits an item for a filament
block whose colour cannot be resolved, with the placeholder `"Unknown"` in
`color_name` (and in `brand`) instead of discarding the block. -/
theorem C2_counterexample :
    extractAmazonProducts c2AmazonText = [c2AmazonItem] ∧
    c2AmazonItem.color_name = lit ("Unknown") := by
  exact ⟨by rfl, by rfl⟩

/-- Claim C8 counterexample: a Bambu invoice block whose quantity/price line
reads `"SPL 0 $5.00"` is emitted with quantity 0, violating the claimed
`quantity ≥ 1` invariant. -/
theorem C8_counterexample :
    extractBambuProducts c8text = Except.ok [c8item] ∧ c8item.quantity = 0 := by
  exact ⟨by rfl, by rfl⟩

/-- Claim C1 counterexample: in the `oC1` environment OCR succeeds and the
winning combination reports mean confidence 90, yet the returned result's
`ocr_confidence` is 0 — `_extract_text_multiple_strategies` returns only the
text and the strategy label, and `parse_label` hard-codes `0.0`. -/
theorem C1_counterexample :
    oC1.run 1 6 = some (sunluText, 90) ∧
    parseLabelO oC1 = Except.ok rC1 ∧
    rC1.ocr_confidence = 0 ∧ (0 : ℚ) ≠ 90 := by
  refine ⟨rfl, by rfl, rfl, by norm_num⟩

/-- Claim C3 counterexample: the second candidate has strictly lower positive
confidence (10 against 50) but longer text, and it replaces the
higher-confidence best: the final extraction result is the second text. -/
theorem C3_counterexample :
    oC3.run 1 6 = some (longA, 50) ∧
    oC3.run 1 11 = some (longB, 10) ∧
    (0 : ℚ) < 10 ∧ (10 : ℚ) < 50 ∧ longA.length < longB.length ∧
    extractTextMS oC3 = Except.ok (longB, lit ("strategy_1_moderate_psm11")) := by
  refine ⟨rfl, rfl, by norm_num, by norm_num, by decide, by rfl⟩

/-- Claim C5 (amended): the compound token takes precedence only at the same
match position — for every text that starts `"Bambu Lab PETG HF"` (so the
leftmost material-token occurrence is the compound), whatever follows, a
successful extraction resolves the material to `"PETG HF"`.  (The
counterexample shows that a bare `PETG` occurring earlier in the text wins
instead: `re.search` is leftmost-first.) -/
theorem C5_compound_wins_at_leftmost (post strat : Str) (r : LabelResult)
    (hlen : ¬ ((pyStrip (lit ("Bambu Lab PETG HF") ++ post)).length < 5))
    (h : extractFields (lit ("Bambu Lab PETG HF") ++ post) strat = Except.ok r) :
    r.material = some (lit ("PETG HF")) := by
  have hb : detectBrand (lit ("Bambu Lab PETG HF") ++ post) = some Brand.bambu := rfl
  have hm : materialField Brand.bambu (lit ("Bambu Lab PETG HF") ++ post)
      = some (lit ("PETG HF")) := rfl
  have hcond : ¬ ((lit ("Bambu Lab PETG HF") ++ post).isEmpty = true ∨
      (pyStrip (lit ("Bambu Lab PETG HF") ++ post)).length < 5) := by
    rintro (habs | habs)
    · rw [show (lit ("Bambu Lab PETG HF") ++ post).isEmpty = false from rfl] at habs
      exact Bool.noConfusion habs
    · exact hlen habs
  unfold extractFields at h
  rw [if_neg hcond, hb] at h
  split at h
  · rename_i heq
    exact Option.noConfusion heq
  · rename_i b heq
    injection heq with heqb
    subst heqb
    split at h
    · exact Except.noConfusion h
    · injection h with h2
      subst h2
      exact hm

/-- Witness for C5 with the empty continuation. -/
theorem C5_witness : rC5w.material = some (lit ("PETG HF")) :=
  C5_compound_wins_at_leftmost [] (lit ("s")) rC5w (by decide) (by rfl)

/-- A candidate whose stripped text is longer than 10 characters is not
empty. -/
theorem strip_long_isEmpty (t : Str) (h : 10 < (pyStrip t).length) : t.isEmpty = false := by
  cases t with
  | nil => exact absurd h (by decide)
  | cons c cs => rfl

/-- One loop step: a prep-failed or exception-raising or non-meaningful or
rejected attempt leaves the final outcome that of the remaining combinations
with the same best state. -/
theorem loopCombos_fst_skip (o : OCROracle) (c : Nat × Str × Nat)
    (rest : List (Nat × Str × Nat)) (b : BestState)
    (hr : o.run c.1 c.2.2 = none) :
    (loopCombos o (c :: rest) b).1 = (loopCombos o rest b).1 := by
  by_cases hp : o.prep c.1 <;> simp [loopCombos, hp, hr]

/-- One loop step: an accepted candidate whose confidence does not exceed 80
updates the best state and continues. -/
theorem loopCombos_fst_accept (o : OCROracle) (c : Nat × Str × Nat)
    (rest : List (Nat × Str × Nat)) (b : BestState) (t : Str) (conf : ℚ)
    (hp : o.prep c.1 = true) (hr : o.run c.1 c.2.2 = some (t, conf))
    (hne : t.isEmpty = false) (hlen : 10 < (pyStrip t).length)
    (hacc : conf > b.conf ∨ (0 < conf ∧ b.text.length < t.length))
    (hnh : ¬ (80 : ℚ) < conf) :
    (loopCombos o (c :: rest) b).1
      = (loopCombos o rest { text := t, conf := conf, strat := c.2.1, psm := c.2.2 }).1 := by
  simp [loopCombos, hp, hr, hne, hlen, hacc, hnh]

/-- One loop step: an accepted candidate whose confidence exceeds 80 returns
immediately. -/
theorem loopCombos_fst_accept_high (o : OCROracle) (c : Nat × Str × Nat)
    (rest : List (Nat × Str × Nat)) (b : BestState) (t : Str) (conf : ℚ)
    (hp : o.prep c.1 = true) (hr : o.run c.1 c.2.2 = some (t, conf))
    (hne : t.isEmpty = false) (hlen : 10 < (pyStrip t).length)
    (hacc : conf > b.conf ∨ (0 < conf ∧ b.text.length < t.length))
    (hh : (80 : ℚ) < conf) :
    (loopCombos o (c :: rest) b).1 = Sum.inl (t, stratPsmLabel c.2.1 c.2.2) := by
  simp [loopCombos, hp, hr, hne, hlen, hacc, hh]

/-- When every remaining combination raises, the loop ends with the current
best state. -/
theorem loopCombos_fst_all_skipped (o : OCROracle) :
    ∀ cs (b : BestState), (∀ c ∈ cs, o.run c.1 c.2.2 = none) →
      (loopCombos o cs b).1 = Sum.inr b := by
  intro cs
  induction cs with
  | nil => intro b _; rfl
  | cons c rest ih =>
    intro b hall
    rw [loopCombos_fst_skip o c rest b (hall c (List.mem_cons_self c rest))]
    exact ih b (fun x hx => hall x (List.mem_cons_of_mem _ hx))

/-- Claim C3 (amended): the loop keeps a candidate when its confidence is
strictly higher than the running best OR when its confidence is positive and
its text strictly longer — so a candidate with strictly lower positive
confidence DOES replace a higher-confidence best whenever its text is longer:
for any two meaningful candidates with `0 < c2 < c1 ≤ 80` and longer second
text, the extraction returns the second text. -/
theorem C3_longer_lower_confidence_wins (t1 t2 : Str) (c1 c2 : ℚ)
    (h1 : 10 < (pyStrip t1).length) (h2 : 10 < (pyStrip t2).length)
    (hc2 : 0 < c2) (hlt : c2 < c1) (hc1 : c1 ≤ 80)
    (hlen : t1.length < t2.length) :
    extractTextMS (twoComboOracle t1 c1 t2 c2)
      = Except.ok (t2, lit ("strategy_1_moderate_psm11")) := by
  have hne1 := strip_long_isEmpty t1 h1
  have hne2 := strip_long_isEmpty t2 h2
  have hc1pos : 0 < c1 := lt_trans hc2 hlt
  have h80 : ¬ (80 : ℚ) < c1 := not_lt.mpr hc1
  set o := twoComboOracle t1 c1 t2 c2 with ho
  have e1 : (loopCombos o comboSeq initBest).1
      = (loopCombos o (comboSeq.drop 1)
          { text := t1, conf := c1, strat := lit ("strategy_1_moderate"), psm := 6 }).1 := by
    exact loopCombos_fst_accept o _ _ _ t1 c1 rfl rfl hne1 h1
      (Or.inl (by simpa [initBest] using hc1pos)) h80
  by_cases h802 : (80 : ℚ) < c2
  · have e2 : (loopCombos o (comboSeq.drop 1)
        { text := t1, conf := c1, strat := lit ("strategy_1_moderate"), psm := 6 }).1
        = Sum.inl (t2, stratPsmLabel (lit ("strategy_1_moderate")) 11) := by
      exact loopCombos_fst_accept_high o _ _ _ t2 c2 rfl rfl hne2 h2
        (Or.inr ⟨hc2, hlen⟩) h802
    unfold extractTextMS
    rw [e1, e2]
    rfl
  · have e2 : (loopCombos o (comboSeq.drop 1)
        { text := t1, conf := c1, strat := lit ("strategy_1_moderate"), psm := 6 }).1
        = (loopCombos o (comboSeq.drop 2)
            { text := t2, conf := c2, strat := lit ("strategy_1_moderate"), psm := 11 }).1 := by
      exact loopCombos_fst_accept o _ _ _ t2 c2 rfl rfl hne2 h2
        (Or.inr ⟨hc2, hlen⟩) h802
    have e3 : (loopCombos o (comboSeq.drop 2)
        { text := t2, conf := c2, strat := lit ("strategy_1_moderate"), psm := 11 }).1
        = Sum.inr { text := t2, conf := c2, strat := lit ("strategy_1_moderate"), psm := 11 } := by
      apply loopCombos_fst_all_skipped
      intro c hc
      fin_cases hc <;> rfl
    unfold extractTextMS
    rw [e1, e2, e3]
    simp only [hne2]
    rfl

/-- Witness for C3 at the concrete candidates `(longA, 50)` then
`(longB, 10)`. -/
theorem C3_witness :
    extractTextMS (twoComboOracle longA 50 longB 10)
      = Except.ok (longB, lit ("strategy_1_moderate_psm11")) :=
  C3_longer_lower_confidence_wins longA longB 50 10 (by decide) (by decide)
    (by norm_num) (by norm_num) (by norm_num) (by decide)

/-- The loop never enters an iteration with a best confidence above 80: as
soon as a combination before `c` strictly raises the best confidence past 80
it returns.  Consequently, once the input list reaches a meaningful attempt
whose confidence exceeds 80, at most the combinations up to and including it
are ever attempted. -/
theorem loopCombos_trace_stops (o : OCROracle) (c : Nat × Str × Nat) (t : Str) (conf : ℚ)
    (hp : o.prep c.1 = true) (hr : o.run c.1 c.2.2 = some (t, conf))
    (hne : t.isEmpty = false) (hlen : 10 < (pyStrip t).length)
    (hconf : (80 : ℚ) < conf) :
    ∀ cs1 cs2 (b : BestState), b.conf ≤ 80 →
      (loopCombos o (cs1 ++ c :: cs2) b).2.length ≤ cs1.length + 1 := by
  intro cs1
  induction cs1 with
  | nil =>
    intro cs2 b hb
    have hacc : conf > b.conf ∨ (0 < conf ∧ b.text.length < t.length) :=
      Or.inl (lt_of_le_of_lt hb hconf)
    simp [loopCombos, hp, hr, hne, hlen, hacc, hconf]
  | cons c0 cs1 ih =>
    intro cs2 b hb
    rw [List.cons_append]
    by_cases hp0 : o.prep c0.1
    · cases hr0 : o.run c0.1 c0.2.2 with
      | none =>
        simp only [loopCombos, hp0, hr0, not_true_eq_false, if_false, List.length_cons]
        have := ih cs2 b hb
        omega
      | some tc =>
        by_cases hg : ¬ tc.1.isEmpty ∧ 10 < (pyStrip tc.1).length
        · by_cases hacc : tc.2 > b.conf ∨ (0 < tc.2 ∧ b.text.length < tc.1.length)
          · by_cases hh : (80 : ℚ) < tc.2
            · simp only [loopCombos, hp0, hr0, not_true_eq_false, if_false, if_pos hg,
                if_pos hacc, if_pos hh, List.length_cons, List.length_nil]
              omega
            · simp only [loopCombos, hp0, hr0, not_true_eq_false, if_false, if_pos hg,
                if_pos hacc, if_neg hh, List.length_cons]
              have := ih cs2 { text := tc.1, conf := tc.2, strat := c0.2.1, psm := c0.2.2 }
                (not_lt.mp hh)
              omega
          · simp only [loopCombos, hp0, hr0, not_true_eq_false, if_false, if_pos hg,
              if_neg hacc, List.length_cons]
            have := ih cs2 b hb
            omega
        · simp only [loopCombos, hp0, hr0, not_true_eq_false, if_false, if_neg hg,
            List.length_cons]
          have := ih cs2 b hb
          omega
    · rw [Bool.not_eq_true] at hp0
      simp only [loopCombos, hp0, Bool.false_eq_true, not_false_eq_true, if_true]
      have := ih cs2 b hb
      simp only [List.length_cons]
      omega

/-- Companion to `loopCombos_trace_stops`: under the same hypotheses, every
attempted combination comes from the prefix up to and including the
high-confidence one. -/
theorem loopCombos_trace_within (o : OCROracle) (c : Nat × Str × Nat) (t : Str) (conf : ℚ)
    (hp : o.prep c.1 = true) (hr : o.run c.1 c.2.2 = some (t, conf))
    (hne : t.isEmpty = false) (hlen : 10 < (pyStrip t).length)
    (hconf : (80 : ℚ) < conf) :
    ∀ cs1 cs2 (b : BestState), b.conf ≤ 80 →
      ∀ x ∈ (loopCombos o (cs1 ++ c :: cs2) b).2,
        x ∈ (cs1 ++ [c]).map (fun y => (y.1, y.2.2)) := by
  intro cs1
  induction cs1 with
  | nil =>
    intro cs2 b hb x hx
    have hacc : conf > b.conf ∨ (0 < conf ∧ b.text.length < t.length) :=
      Or.inl (lt_of_le_of_lt hb hconf)
    simp only [List.nil_append, loopCombos, hp, hr, not_true_eq_false, if_false] at hx
    rw [if_pos (And.intro (show ¬ List.isEmpty t = true by simp [hne]) hlen),
      if_pos hacc, if_pos hconf] at hx
    simpa using hx
  | cons c0 cs1 ih =>
    intro cs2 b hb x hx
    rw [List.cons_append] at hx
    have hstep : ∀ y, y ∈ (cs1 ++ [c]).map (fun z => (z.1, z.2.2)) →
        y ∈ ((c0 :: cs1) ++ [c]).map (fun z => (z.1, z.2.2)) := by
      intro y hy
      simp only [List.cons_append, List.map_cons]
      exact List.mem_cons_of_mem _ hy
    by_cases hp0 : o.prep c0.1
    · cases hr0 : o.run c0.1 c0.2.2 with
      | none =>
        simp only [loopCombos, hp0, hr0, not_true_eq_false, if_false] at hx
        rcases List.mem_cons.mp hx with rfl | hx2
        · simp
        · exact hstep x (ih cs2 b hb x hx2)
      | some tc =>
        by_cases hg : ¬ tc.1.isEmpty ∧ 10 < (pyStrip tc.1).length
        · by_cases hacc : tc.2 > b.conf ∨ (0 < tc.2 ∧ b.text.length < tc.1.length)
          · by_cases hh : (80 : ℚ) < tc.2
            · simp only [loopCombos, hp0, hr0, not_true_eq_false, if_false, if_pos hg,
                if_pos hacc, if_pos hh] at hx
              rcases List.mem_singleton.mp hx with rfl
              simp
            · simp only [loopCombos, hp0, hr0, not_true_eq_false, if_false, if_pos hg,
                if_pos hacc, if_neg hh] at hx
              rcases List.mem_cons.mp hx with rfl | hx2
              · simp
              · exact hstep x (ih cs2 _ (not_lt.mp hh) x hx2)
          · simp only [loopCombos, hp0, hr0, not_true_eq_false, if_false, if_pos hg,
              if_neg hacc] at hx
            rcases List.mem_cons.mp hx with rfl | hx2
            · simp
            · exact hstep x (ih cs2 b hb x hx2)
        · simp only [loopCombos, hp0, hr0, not_true_eq_false, if_false, if_neg hg] at hx
          rcases List.mem_cons.mp hx with rfl | hx2
          · simp
          · exact hstep x (ih cs2 b hb x hx2)
    · rw [Bool.not_eq_true] at hp0
      simp only [loopCombos, hp0, Bool.false_eq_true, not_false_eq_true, if_true] at hx
      exact hstep x (ih cs2 b hb x hx)

/-- Claim C9 (amended): whenever a (strategy, PSM) attempt yields meaningful
text (stripped length over 10) with confidence above 80, the loop returns the
attempt's text immediately and no combination after it in loop order is ever
attempted: at most `j + 1` combinations are attempted and every attempted one
is among the first `j + 1` in loop order.  (The counterexample shows the
meaningful-text guard is necessary: a high-confidence attempt with short text
does not stop the loop.) -/
theorem C9_high_confidence_early_exit (o : OCROracle) (j sn psm : Nat) (sname : Str)
    (t : Str) (conf : ℚ)
    (hj : comboSeq.get? j = some (sn, sname, psm))
    (hp : o.prep sn = true) (hr : o.run sn psm = some (t, conf))
    (hne : t.isEmpty = false) (hlen : 10 < (pyStrip t).length)
    (hconf : (80 : ℚ) < conf) :
    (attemptedCombos o).length ≤ j + 1 ∧
    ∀ x ∈ attemptedCombos o,
      x ∈ (comboSeq.take (j + 1)).map (fun c => (c.1, c.2.2)) := by
  have hjlt : j < comboSeq.length := by
    rcases List.get?_eq_some.mp hj with ⟨hlt, _⟩
    exact hlt
  rcases List.get?_eq_some.mp hj with ⟨hlt, hget⟩
  have hsplit : comboSeq = comboSeq.take j ++ (sn, sname, psm) :: comboSeq.drop (j + 1) := by
    conv_lhs => rw [← List.take_append_drop j comboSeq]
    rw [List.drop_eq_getElem_cons hjlt]
    simp [List.get_eq_getElem] at hget
    rw [hget]
  have hlen_take : (comboSeq.take j).length = j := by
    simp [List.length_take, Nat.min_eq_left (le_of_lt hjlt)]
  have htake1 : comboSeq.take (j + 1) = comboSeq.take j ++ [(sn, sname, psm)] := by
    conv_lhs => rw [hsplit]
    rw [List.take_append_eq_append_take, hlen_take]
    simp
  constructor
  · unfold attemptedCombos
    rw [hsplit]
    have := loopCombos_trace_stops o (sn, sname, psm) t conf hp hr hne hlen hconf
      (comboSeq.take j) (comboSeq.drop (j + 1)) initBest (by norm_num [initBest])
    omega
  · intro x hx
    rw [htake1]
    unfold attemptedCombos at hx
    rw [hsplit] at hx
    exact loopCombos_trace_within o (sn, sname, psm) t conf hp hr hne hlen hconf
      (comboSeq.take j) (comboSeq.drop (j + 1)) initBest (by norm_num [initBest]) x hx

/-- Witness for C9: the very first combination yields 20 meaningful characters
at confidence 90, so at most one combination is attempted. -/
theorem C9_witness : (attemptedCombos oC9w).length ≤ 0 + 1 :=
  (C9_high_confidence_early_exit oC9w 0 1 6 (lit ("strategy_1_moderate")) longB 90
    (by rfl) (by rfl) (by rfl) (by rfl) (by decide) (by norm_num)).1

/-- Claim C9 counterexample: the attempt at the first combination yields
confidence 95 > 80, yet the loop continues — its text strips to only five
characters, failing the meaningful-text guard, so later combinations
(here strategy 1, PSM 11) are still attempted. -/
theorem C9_counterexample :
    oC9.run 1 6 = some (lit ("short"), 95) ∧ (80 : ℚ) < 95 ∧
    (1, 11) ∈ attemptedCombos oC9 := by
  refine ⟨rfl, by norm_num, by decide⟩

end FilamentScanner
